import Mathlib

/-!
Verification of the WebServer HTTP serving engine against its specification.

This file shallowly embeds the parts of the C++ implementation
(`src/http/http_connection.cpp`, `src/timer/timer_list.cpp`,
`include/http_connection.h`) that the checked claims are about:

* the line extractor `parse_line` over the read buffer,
* the request-line parser `parse_request_line` with its in-place writes,
* the header parser `parse_headers` (Content-Length policy, buffer resize),
* the read-buffer growth policy (`READ_BUFFER_SIZE`, `grow_read_buffer`),
* the router `do_request` up to its filesystem-dependent tail, together
  with the static-file tail and the response assembler `process_write`,
* the sorted timer list (`add_timer`, `adjust_timer`, `del_timer`, `tick`),
* the client-IP normalisation (`normalize_client_ip`, `is_private_ipv4`).

Byte buffers are modelled as `List Char`, C strings by their NUL-terminated
prefix, machine `long` values by `Int` (all values involved are far below
2^63, and `atol` overflow is undefined behaviour in the source's terms).
-/

namespace WS

/-! ## C character and string primitives -/

/-- `isspace` in the default C locale. -/
def isCSpace (c : Char) : Bool :=
  c = ' ' || c = '\t' || c = '\n' || c = '\u000B' || c = '\u000C' || c = '\r'

/-- ASCII decimal digit test. -/
def isDigitC (c : Char) : Bool :=
  '0' ≤ c && c ≤ '9'

/-- `tolower` for ASCII, as used via `std::tolower` on header names. -/
def lowerC (c : Char) : Char :=
  if 'A' ≤ c && c ≤ 'Z' then Char.ofNat (c.toNat + 32) else c

/-- Accumulate the leading decimal digits, as the digit loop of `atol`. -/
def digitsValue : List Char → Int → Int
  | [], acc => acc
  | c :: cs, acc =>
      if isDigitC c then digitsValue cs (acc * 10 + (c.toNat - 48 : Int)) else acc

/-- C `atol`/`atoi`: skip whitespace, optional sign, leading digits. -/
def atolM (l : List Char) : Int :=
  match l.dropWhile isCSpace with
  | '-' :: rest => - digitsValue rest 0
  | '+' :: rest => digitsValue rest 0
  | rest => digitsValue rest 0

/-! ## Client IP normalisation (`is_private_ipv4`, `normalize_client_ip`) -/

/-- `std::string::rfind(pat, 0) == 0`, i.e. `pat` is a leading substring. -/
def swL (s pat : String) : Bool :=
  pat.toList.isPrefixOf s.toList

/-- `is_private_ipv4` from `http_connection.cpp`: RFC-1918 ranges 10/8,
172.16/12, 192.168/16 and loopback 127/8. -/
def is_private_ipv4 (ip : String) : Bool :=
  if swL ip "10." then true
  else if swL ip "127." then true
  else if swL ip "192.168." then true
  else if swL ip "172." then
    let rest := ip.toList.drop 4
    if rest.contains '.' then
      let second := atolM (rest.takeWhile (fun c => c ≠ '.'))
      decide (16 ≤ second ∧ second ≤ 31)
    else false
  else false

/-- `normalize_client_ip` from `http_connection.cpp`: collapse IPv6
loopback, private IPv4 and IPv6 link-local addresses to `"local"`. -/
def normalize_client_ip (ip : String) : String :=
  if ip = "" then ""
  else if ip = "::1" then "local"
  else if is_private_ipv4 ip then "local"
  else if swL ip "fe80:" then "local"
  else ip

/-! ## HTTP connection state and constants -/

/-- `http_conn::READ_BUFFER_SIZE` from `http_connection.h`: 10 MiB. -/
def READ_BUFFER_SIZE : Nat := 10 * 1024 * 1024

/-- `kMaxBodySize` from `http_connection.cpp`: request bodies are capped
at 200 MiB. -/
def kMaxBodySize : Int := 200 * 1024 * 1024

/-- The `max_size` of the `grow_read_buffer` lambda in
`http_conn::read_once`: `kMaxBodySize + 4096`. -/
def maxReadBufSize : Nat := 200 * 1024 * 1024 + 4096

/-- Size of `m_read_buf` installed by `http_conn::init()`
(`m_read_buf.assign(READ_BUFFER_SIZE, '\0')`), both on a fresh connection
and on keep-alive reuse. -/
def initReadBufSize : Nat := READ_BUFFER_SIZE

/-- Modulus of the C `size_t` type on the target (64-bit). -/
def sizeTMod : Nat := 2 ^ 64

/-- `static_cast<size_t>` of a signed 64-bit value. -/
def castSizeT (v : Int) : Nat := (v % (sizeTMod : Int)).toNat

/-- The `grow_read_buffer` lambda of `http_conn::read_once`: fail at the
cap, else double (with a minimum step of 4096) and clamp to the cap. -/
def grow_read_buffer (current : Nat) : Option Nat :=
  if current ≥ maxReadBufSize then none
  else
    let next := current * 2
    let next := if next < current + 4096 then current + 4096 else next
    let next := if next > maxReadBufSize then maxReadBufSize else next
    some next

/-- `http_conn::CHECK_STATE`. -/
inductive CHECK_STATE
  | CHECK_STATE_REQUESTLINE
  | CHECK_STATE_HEADER
  | CHECK_STATE_CONTENT
deriving DecidableEq, Repr

/-- `http_conn::HTTP_CODE`. -/
inductive HTTP_CODE
  | NO_REQUEST
  | GET_REQUEST
  | BAD_REQUEST
  | NO_RESOURCE
  | FORBIDDEN_REQUEST
  | FILE_REQUEST
  | DYNAMIC_REQUEST
  | PHP_REQUEST
  | INTERNAL_ERROR
  | CLOSED_CONNECTION
deriving DecidableEq, Repr

/-- `http_conn::METHOD` (only GET and POST are ever assigned). -/
inductive METHOD
  | GET
  | POST
deriving DecidableEq, Repr

/-- The fields of `http_conn` that the header parser, the router and the
response assembler read or write.  The read buffer is represented by its
size (its bytes are handled separately by the line-level parsers), and
the `send` of `100 Continue` and the `update_client_ip` calls are
recorded as effects. -/
structure http_conn where
  readBufSize : Nat
  m_content_length : Int
  m_linger : Bool
  m_check_state : CHECK_STATE
  m_method : METHOD
  cgi : Nat
  m_url : Option String
  m_string : Option String
  m_host : Option String
  m_cookie : String
  m_boundary : String
  m_username : String
  m_extra_headers : String
  m_response_status : Nat
  m_dynamic_content : String
  m_dynamic_content_type : String
  m_content_type : String
  sent100 : Bool
  ipUpdates : List String
deriving DecidableEq, Repr

/-! ## C string comparison helpers for the header parser -/

/-- `c == ' ' || c == '\t'`. -/
def isSpTab (c : Char) : Bool := c = ' ' || c = '\t'

/-- `text += strspn(text, " \t")` on the NUL-free model of a C string. -/
def spnSpTab (l : List Char) : List Char := l.dropWhile isSpTab

/-- `strncasecmp(text, lit, strlen(lit)) == 0` where `lit` has no NUL. -/
def strncaseEqL (text lit : List Char) : Bool :=
  (text.take lit.length).map lowerC == lit.map lowerC

/-- `strcasecmp(text, lit) == 0` on NUL-free models of C strings. -/
def strcaseEqL (text lit : List Char) : Bool :=
  text.map lowerC == lit.map lowerC

/-- First position of `pat` inside `l` (`std::string::find`). -/
def findSub (pat : List Char) : List Char → Option Nat
  | [] => if pat = [] then some 0 else none
  | c :: rest =>
      if pat.isPrefixOf (c :: rest) then some 0
      else (findSub pat rest).map (· + 1)

/-- `std::string::find(pat) != npos`. -/
def containsSub (pat l : List Char) : Bool := (findSub pat l).isSome

/-- `trim` from `http_connection.cpp`: strip `std::isspace` characters
from both ends. -/
def trimL (l : List Char) : List Char :=
  ((l.dropWhile isCSpace).reverse.dropWhile isCSpace).reverse

/-- `extract_forwarded_ip` from `http_connection.cpp`: trim, take the
first comma-separated entry, trim again. -/
def extract_forwarded_ip (value : List Char) : List Char :=
  let trimmed := trimL value
  if trimmed = [] then []
  else
    let ip := match findSub [','] trimmed with
      | none => trimmed
      | some c => trimmed.take c
    trimL ip

/-! ## Page shells and bodies built by the embedded handlers -/

/-- `http_conn::build_page_shell`: leading chunk before the title. -/
def shellPre : String :=
  "<!DOCTYPE html>\n<html lang=\"zh-CN\">\n<head>\n<meta charset=\"UTF-8\">\n<meta name=\"viewport\" content=\"width=device-width, initial-scale=1.0\">\n<link rel=\"icon\" href=\"/assets/media/favicon.ico\">\n<link rel=\"stylesheet\" href=\"/assets/css/site.css\">\n<title>WebServer | "

/-- `http_conn::build_page_shell`: chunk between the title and the body. -/
def shellMid : String :=
  "</title>\n</head>\n<body>\n\n<div class=\"page\">\n<div class=\"nav\">\n<div class=\"brand\">WebServer &#x5b9e;&#x9a8c;&#x7ad9;</div>\n<div class=\"nav-links\">\n<a href=\"/\">&#x9996;&#x9875;</a>\n<a href=\"/uploads/list\">&#x6211;&#x7684;&#x4e0a;&#x4f20;</a>\n<a href=\"/pages/status.html\">&#x76d1;&#x63a7;</a>\n </div>\n <div class=\"nav-auth\">\n <a class=\"btn ghost\" href=\"/pages/log.html\">&#x767b;&#x5f55;</a>\n <a class=\"btn primary\" href=\"/pages/register.html\">&#x6ce8;&#x518c;</a>\n </div>\n </div>"

/-- `http_conn::build_page_shell`: trailing chunk after the body. -/
def shellPost : String :=
  "</div>\n<script src=\"/assets/js/nav-auth.js\"></script>\n</body>\n</html>"

/-- `http_conn::build_page_shell(title, body)`. -/
def build_page_shell (title body : String) : String :=
  shellPre ++ title ++ shellMid ++ body ++ shellPost

/-- Title of the 413 page built in `parse_headers`. -/
def title413 : String := "&#x8bf7;&#x6c42;&#x4f53;&#x8fc7;&#x5927;"

/-- Body of the 413 page built in `parse_headers`. -/
def body413 : String :=
  "<section class=\"panel\" style=\"max-width: 620px; margin: 0 auto;\">\n\n<h2 style=\"font-size: 24px;\">&#x4e0a;&#x4f20;&#x5931;&#x8d25;</h2>\n\n<p style=\"margin-top: 8px; color: var(--muted);\">&#x8bf7;&#x6c42;&#x4f53;&#x8d85;&#x8fc7;&#x670d;&#x52a1;&#x5668;&#x9650;&#x5236;&#xff0c;&#x8bf7;&#x7f29;&#x5c0f;&#x6587;&#x4ef6;&#x540e;&#x518d;&#x8bd5;&#x3002;</p>\n\n<div class=\"actions\" style=\"margin-top: 16px;\">\n\n<a class=\"btn primary\" href=\"/pages/upload.html\">&#x8fd4;&#x56de;&#x4e0a;&#x4f20;</a>\n\n\n</div>\n\n</section>"

/-- Title of the login-required page built by `redirect_login`. -/
def titleNeedLogin : String := "&#x9700;&#x8981;&#x767b;&#x5f55;"

/-- Body of the login-required page built by `redirect_login`. -/
def bodyNeedLogin : String :=
  "<section class=\"panel\" style=\"max-width: 620px; margin: 0 auto;\">\n\n<h2 style=\"font-size: 24px;\">&#x8bf7;&#x5148;&#x767b;&#x5f55;</h2>\n\n<p style=\"margin-top: 8px; color: var(--muted);\">&#x8be5;&#x529f;&#x80fd;&#x4ec5;&#x5bf9;&#x5df2;&#x767b;&#x5f55;&#x7528;&#x6237;&#x5f00;&#x653e;&#x3002;</p>\n\n<div class=\"actions\" style=\"margin-top: 16px;\">\n\n<a class=\"btn primary\" href=\"/pages/log.html\">&#x524d;&#x5f80;&#x767b;&#x5f55;</a>\n\n<a class=\"btn ghost\" href=\"/pages/register.html\">&#x6ce8;&#x518c;&#x8d26;&#x53f7;</a>\n\n</div>\n\n</section>"

/-- Title of the logout page built by the `/logout` branch. -/
def titleLogout : String := "&#x9000;&#x51fa;&#x767b;&#x5f55;"

/-- Body of the logout page built by the `/logout` branch. -/
def bodyLogout : String :=
  "<section class=\"panel\" style=\"max-width: 620px; margin: 0 auto;\">\n\n<h2 style=\"font-size: 24px;\">&#x5df2;&#x9000;&#x51fa;&#x767b;&#x5f55;</h2>\n\n<p style=\"margin-top: 8px; color: var(--muted);\">&#x4f60;&#x5df2;&#x5b89;&#x5168;&#x9000;&#x51fa;&#xff0c;&#x53ef;&#x4ee5;&#x91cd;&#x65b0;&#x767b;&#x5f55;&#x3002;</p>\n\n<div class=\"actions\" style=\"margin-top: 16px;\">\n\n<a class=\"btn primary\" href=\"/pages/log.html\">&#x524d;&#x5f80;&#x767b;&#x5f55;</a>\n\n\n</div>\n\n</section>"

/-! ## Header parser (`http_conn::parse_headers`)

The argument `text` is the NUL-free model of the C string for the current
header line (the line extractor has written `'\0'` over the terminator). -/

/-- Strip surrounding double quotes from a multipart boundary. -/
def stripQuotes (b : List Char) : List Char :=
  if b.length ≥ 2 ∧ b.headI = '"' ∧ b.getLastI = '"' then
    (b.drop 1).take (b.length - 2)
  else b

/-- The `Content-Type:` branch of `parse_headers`: extract `boundary=`. -/
def parseBoundary (value : List Char) (st : http_conn) : http_conn :=
  match findSub ("boundary=".toList) (value.map lowerC) with
  | none => st
  | some pos =>
      let start := pos + 9
      let segment :=
        match findSub [';'] (value.drop start) with
        | none => value.drop start
        | some e => (value.drop start).take e
      let boundary := stripQuotes (trimL segment)
      { st with m_boundary := ⟨boundary⟩ }

/-- `http_conn::parse_headers(text)`. -/
def parse_headers (text : List Char) (st : http_conn) :
    HTTP_CODE × http_conn :=
  if text = [] then
    if st.m_content_length ≠ 0 then
      (.NO_REQUEST, { st with m_check_state := .CHECK_STATE_CONTENT })
    else (.GET_REQUEST, st)
  else if strncaseEqL text ("Connection:".toList) then
    let v := spnSpTab (text.drop 11)
    if strcaseEqL v ("keep-alive".toList) then
      (.NO_REQUEST, { st with m_linger := true })
    else (.NO_REQUEST, st)
  else if strncaseEqL text ("Content-length:".toList) then
    let v := spnSpTab (text.drop 15)
    let st := { st with m_content_length := atolM v }
    if st.m_content_length > kMaxBodySize then
      (.DYNAMIC_REQUEST, { st with
        m_response_status := 413,
        m_dynamic_content_type := "text/html; charset=utf-8",
        m_dynamic_content := build_page_shell title413 body413 })
    else
      let needed :=
        min ((castSizeT st.m_content_length + 4096) % sizeTMod)
          (READ_BUFFER_SIZE * 2)
      if needed > st.readBufSize then
        (.NO_REQUEST, { st with readBufSize := needed })
      else (.NO_REQUEST, st)
  else if strncaseEqL text ("Expect:".toList) then
    let v := spnSpTab (text.drop 7)
    if containsSub ("100-continue".toList) (v.map lowerC) then
      (.NO_REQUEST, { st with sent100 := true })
    else (.NO_REQUEST, st)
  else if strncaseEqL text ("Content-Type:".toList) then
    let v := spnSpTab (text.drop 13)
    (.NO_REQUEST, parseBoundary v st)
  else if strncaseEqL text ("Host:".toList) then
    let v := spnSpTab (text.drop 5)
    (.NO_REQUEST, { st with m_host := some ⟨v⟩ })
  else if strncaseEqL text ("Cookie:".toList) then
    let v := spnSpTab (text.drop 7)
    (.NO_REQUEST, { st with m_cookie := ⟨v⟩ })
  else if strncaseEqL text ("X-Forwarded-For:".toList) then
    let v := spnSpTab (text.drop 16)
    (.NO_REQUEST,
      { st with ipUpdates := st.ipUpdates ++ [⟨extract_forwarded_ip v⟩] })
  else if strncaseEqL text ("CF-Connecting-IP:".toList) then
    let v := spnSpTab (text.drop 17)
    (.NO_REQUEST,
      { st with ipUpdates := st.ipUpdates ++ [⟨extract_forwarded_ip v⟩] })
  else (.NO_REQUEST, st)

/-- The connection state right after `http_conn::init()` (the private
reset overload): fresh buffer of `READ_BUFFER_SIZE`, zero Content-Length,
request-line state, GET, status 200, everything else cleared. -/
def conn0 : http_conn where
  readBufSize := initReadBufSize
  m_content_length := 0
  m_linger := false
  m_check_state := .CHECK_STATE_REQUESTLINE
  m_method := .GET
  cgi := 0
  m_url := none
  m_string := none
  m_host := none
  m_cookie := ""
  m_boundary := ""
  m_username := ""
  m_extra_headers := ""
  m_response_status := 200
  m_dynamic_content := ""
  m_dynamic_content_type := ""
  m_content_type := "text/html; charset=utf-8"
  sent100 := false
  ipUpdates := []

/-! ## Timer list (`timer_list.cpp`)

The intrusive doubly-linked list of `util_timer` nodes is modelled as a
`List util_timer`; a node's position is given by splitting the list as
`pre ++ t :: suf`.  Callbacks carry no information relevant to the claims,
so a timer is its expiry plus an identity tag. -/

/-- A `util_timer` node: absolute expiry (`time_t`) and an identity tag
standing for the attached `client_data`. -/
structure util_timer where
  expire : Int
  id : Nat
deriving DecidableEq, Repr

/-- The scan of the private `add_timer(timer, lst_head)` over the nodes
after `lst_head`: splice before the first node with strictly larger
expiry, else append at the tail. -/
def ins_timer (t : util_timer) : List util_timer → List util_timer
  | [] => [t]
  | x :: xs => if t.expire < x.expire then t :: x :: xs else x :: ins_timer t xs

/-- `sort_timer_lst::add_timer(timer)`: empty list and head-insertion
cases, otherwise the linear scan from the head. -/
def add_timer (t : util_timer) : List util_timer → List util_timer
  | [] => [t]
  | h :: rest =>
      if t.expire < h.expire then t :: h :: rest else h :: ins_timer t rest

/-- `sort_timer_lst::adjust_timer(timer)` on the list `pre ++ t :: suf`,
where the caller has just advanced `t.expire`: no-op when `t` is last or
still precedes its successor, otherwise unlink and re-insert by scanning
from the successor (the source's head and middle cases both do this). -/
def adjust_timer (pre : List util_timer) (t : util_timer)
    (suf : List util_timer) : List util_timer :=
  match suf with
  | [] => pre ++ [t]
  | s :: rest =>
      if t.expire < s.expire then pre ++ t :: s :: rest
      else pre ++ s :: ins_timer t rest

/-- `sort_timer_lst::del_timer(timer)` on the list `pre ++ t :: suf`:
unlink the node. -/
def del_timer (pre : List util_timer) (suf : List util_timer) :
    List util_timer :=
  pre ++ suf

/-- `sort_timer_lst::tick()`: from the head, while `expire ≤ now`, invoke
the callback and unlink; stop at the first non-expired node.  Returns the
fired nodes in firing order and the remaining list. -/
def tick (now : Int) : List util_timer → List util_timer × List util_timer
  | [] => ([], [])
  | t :: rest =>
      if now < t.expire then ([], t :: rest)
      else
        let p := tick now rest
        (t :: p.1, p.2)

/-- The ascending-expiry invariant of the timer list. -/
def timersSorted (l : List util_timer) : Prop :=
  l.Pairwise (fun a b => a.expire ≤ b.expire)

/-! ## Line extractor (`http_conn::parse_line`)

The read buffer is the list of its bytes; `checked` is `m_checked_idx`
and `read` is `m_read_idx` (the real connection maintains
`checked ≤ read ≤ buffer size`).  The result carries the `LINE_STATUS`,
the buffer after the in-place NUL writes, and the final `m_checked_idx`. -/

/-- `http_conn::LINE_STATUS`. -/
inductive LINE_STATUS
  | LINE_OK
  | LINE_BAD
  | LINE_OPEN
deriving DecidableEq, Repr

/-- `http_conn::parse_line()`: scan from `checked` for a line
terminator; on CRLF (or LF directly preceded by CR) overwrite the
terminator with NULs in place and advance past it. -/
def parse_line (buf : List Char) (checked read : Nat) :
    LINE_STATUS × List Char × Nat :=
  if h : checked < read then
    let temp := buf.getD checked ' '
    if temp = '\r' then
      if checked + 1 = read then (.LINE_OPEN, buf, checked)
      else if buf.getD (checked + 1) ' ' = '\n' then
        (.LINE_OK, (buf.set checked '\x00').set (checked + 1) '\x00',
          checked + 2)
      else (.LINE_BAD, buf, checked)
    else if temp = '\n' then
      if 1 < checked ∧ buf.getD (checked - 1) ' ' = '\r' then
        (.LINE_OK, (buf.set (checked - 1) '\x00').set checked '\x00',
          checked + 1)
      else (.LINE_BAD, buf, checked)
    else parse_line buf (checked + 1) read
  else (.LINE_OPEN, buf, checked)
termination_by read - checked
decreasing_by omega

/-! ## Request-line parser (`http_conn::parse_request_line`)

The argument is the slice of the read buffer holding the request line:
from `m_start_line` up to the parse cursor, so its last two bytes are the
NULs that `parse_line` wrote over the line terminator.  C string scans
stop at the first NUL; writes are in-place `List.set`. -/

/-- The NUL-terminated prefix of the buffer at `start` (the C string a
`char*` into the buffer denotes). -/
def cstrFrom (buf : List Char) (start : Nat) : List Char :=
  (buf.drop start).takeWhile (fun c => c ≠ '\x00')

/-- Index of the first accepted character of a list. -/
def scanIdx (accept : Char → Bool) : List Char → Option Nat
  | [] => none
  | c :: cs => if accept c then some 0 else (scanIdx accept cs).map (· + 1)

/-- `strpbrk(buf + start, accept)` as an absolute buffer index. -/
def strpbrkIdx (buf : List Char) (start : Nat) (accept : Char → Bool) :
    Option Nat :=
  (scanIdx accept (cstrFrom buf start)).map (start + ·)

/-- `strchr(buf + start, c)` for `c ≠ NUL`, as an absolute index. -/
def strchrIdx (buf : List Char) (start : Nat) (c : Char) : Option Nat :=
  strpbrkIdx buf start (fun x => x = c)

/-- `start + strspn(buf + start, " \t")`. -/
def spnIdx (buf : List Char) (start : Nat) : Nat :=
  start + ((buf.drop start).takeWhile isSpTab).length

/-- The bytes `strcat(m_url, "index.html")` appends after the `/`:
`"index.html"` plus its terminating NUL. -/
def indexHtmlNul : List Char := "index.html".toList ++ ['\x00']

/-- Consecutive in-place writes starting at `pos`. -/
def writeAt (buf : List Char) (pos : Nat) : List Char → List Char
  | [] => buf
  | c :: cs => writeAt (buf.set pos c) (pos + 1) cs

/-- Result of a successful `parse_request_line`: the mutated buffer, the
index `m_url` points at, the parsed method, the `cgi` flag, and whether
the URL was exactly `/` so that `index.html` was appended in place. -/
structure ReqLineOut where
  buf : List Char
  urlIdx : Nat
  m_method : METHOD
  cgi : Bool
  rooted : Bool
deriving DecidableEq, Repr

/-- The method test of `parse_request_line`: only GET and POST are
accepted; POST sets the `cgi` flag. -/
def parse_method (buf1 : List Char) : Option (METHOD × Bool) :=
  if strcaseEqL (cstrFrom buf1 0) ("GET".toList) then some (.GET, false)
  else if strcaseEqL (cstrFrom buf1 0) ("POST".toList) then
    some (.POST, true)
  else none

/-- The scheme strip of `parse_request_line`: an URL starting with
`http://` or `https://` is cut down to its first `/`.  (When `strchr`
finds no `/` the source would pass a NULL pointer to `strncasecmp`; the
subsequent null test rejects the request, modelled by `none`.) -/
def strip_scheme (buf2 : List Char) (u : Nat) : Option Nat :=
  match (if strncaseEqL (cstrFrom buf2 u) ("http://".toList) then
      strchrIdx buf2 (u + 7) '/'
    else some u) with
  | none => none
  | some q =>
      if strncaseEqL (cstrFrom buf2 q) ("https://".toList) then
        strchrIdx buf2 (q + 8) '/'
      else some q

/-- The URL checks closing `parse_request_line`: the URL must start with
`/`, and a bare `/` gets `index.html` appended in place by `strcat`. -/
def finish_url (buf2 : List Char) (q : Nat) (m : METHOD) (cg : Bool) :
    Option ReqLineOut :=
  if buf2.getD q ' ' = '/' then
    if (cstrFrom buf2 q).length = 1 then
      some ⟨writeAt buf2 (q + 1) indexHtmlNul, q, m, cg, true⟩
    else some ⟨buf2, q, m, cg, false⟩
  else none

/-- `http_conn::parse_request_line(text)`: split METHOD, URL and VERSION
on SP/TAB (writing NULs over the separators), accept only GET/POST and
version `HTTP/1.1` (case-insensitive), strip an `http://` or `https://`
scheme down to the first `/`, reject URLs not starting with `/`, and
expand a bare `/` by appending `index.html` in place.  `none` models
`BAD_REQUEST`. -/
def parse_request_line (buf0 : List Char) : Option ReqLineOut :=
  match strpbrkIdx buf0 0 isSpTab with
  | none => none
  | some p1 =>
    let buf1 := buf0.set p1 '\x00'
    match parse_method buf1 with
    | none => none
    | some (m, cg) =>
      let u := spnIdx buf1 (p1 + 1)
      match strpbrkIdx buf1 u isSpTab with
      | none => none
      | some p2 =>
        let buf2 := buf1.set p2 '\x00'
        let v := spnIdx buf2 (p2 + 1)
        if strcaseEqL (cstrFrom buf2 v) ("HTTP/1.1".toList) then
          match strip_scheme buf2 u with
          | none => none
          | some q => finish_url buf2 q m cg
        else none

/-! ## URL decoding and cookie lookup -/

/-- `hex_value` from `http_connection.cpp`. -/
def hex_value (ch : Char) : Int :=
  if '0' ≤ ch ∧ ch ≤ '9' then (ch.toNat : Int) - 48
  else if 'a' ≤ ch ∧ ch ≤ 'f' then 10 + ((ch.toNat : Int) - 97)
  else if 'A' ≤ ch ∧ ch ≤ 'F' then 10 + ((ch.toNat : Int) - 65)
  else -1

/-- The loop of `url_decode`: `+` becomes a space, a valid `%XY` becomes
the byte `16·X + Y`, anything else is copied. -/
def url_decode_list : List Char → List Char
  | [] => []
  | '+' :: rest => ' ' :: url_decode_list rest
  | '%' :: c1 :: c2 :: rest =>
      if hex_value c1 ≥ 0 ∧ hex_value c2 ≥ 0 then
        Char.ofNat ((hex_value c1).toNat * 16 + (hex_value c2).toNat) ::
          url_decode_list rest
      else '%' :: url_decode_list (c1 :: c2 :: rest)
  | c :: rest => c :: url_decode_list rest

/-- `url_decode` from `http_connection.cpp`. -/
def url_decode (s : String) : String := ⟨url_decode_list s.toList⟩

/-- Split a cookie header on `;` (the `pos`/`find` loop of
`get_cookie_value`). -/
def splitSemi : List Char → List (List Char)
  | [] => [[]]
  | c :: rest =>
      if c = ';' then [] :: splitSemi rest
      else
        match splitSemi rest with
        | [] => [[c]]
        | seg :: segs => (c :: seg) :: segs

/-- The segment loop of `get_cookie_value`: trim the segment, split at
the first `=`, trim the name, return the (untrimmed) value on a match. -/
def gcv_go (key : String) : List (List Char) → String
  | [] => ""
  | seg :: rest =>
      let pair := trimL seg
      match scanIdx (fun c => c = '=') pair with
      | none => gcv_go key rest
      | some eq =>
          let name := trimL (pair.take eq)
          let value := pair.drop (eq + 1)
          if (⟨name⟩ : String) = key then ⟨value⟩ else gcv_go key rest

/-- `http_conn::get_cookie_value(key)` over the stored `m_cookie`. -/
def get_cookie_value (cookie key : String) : String :=
  if cookie = "" ∨ key = "" then ""
  else gcv_go key (splitSemi cookie.toList)

/-- Lookup in the in-memory user table (the global `users` map). -/
def lookupUser (users : List (String × String)) (name : String) :
    Option String :=
  (users.find? (fun p => p.1 = name)).map (·.2)

/-! ## Router (`http_conn::do_request`)

The router is embedded up to the point where it must touch the
filesystem or the database-backed upload handlers: the authenticated
endpoint handlers and the static-file tail appear as `ReqAction`
constructors carrying the final URL, while every path that the router
itself decides (400 on bad URLs, the login redirect, logout, the
login/register form handling) is fully modelled. -/

/-- How `do_request` concluded. -/
inductive ReqAction
  | ret (c : HTTP_CODE)
  | statusJson
  | uploadPost
  | uploadDelete
  | uploadList
  | welcomePage
  | uploadFetch (stored : String)
  | fileStage (url : String)
deriving DecidableEq, Repr

/-- The state mutation of the `redirect_login` lambda in `do_request`:
302 plus a `Location` header to the login page and the login-required
page body. -/
def redirect_login (st : http_conn) : http_conn :=
  { st with
    m_response_status := 302,
    m_extra_headers := st.m_extra_headers ++ "Location: /pages/log.html\r\n",
    m_dynamic_content_type := "text/html; charset=utf-8",
    m_dynamic_content := build_page_shell titleNeedLogin bodyNeedLogin }

/-- The `/2` (login) and `/3` (register) form handling of `do_request`:
`none` models the `BAD_REQUEST` returns; otherwise the rewritten URL, the
possibly-updated login state, connection state and user table.
`sqlInsertOk` is the result of the external `mysql_query` insert.  (The
`user_end = pass_pos - 1` fallback and the `substr` length are computed
in `size_t`, whose wrap-around clamps the substring to the end of the
payload.) -/
def login_register (users : List (String × String)) (sqlInsertOk : Bool)
    (url : String) (logged_in : Bool) (st : http_conn) :
    Option (String × Bool × http_conn × List (String × String)) :=
  match st.m_string with
  | none => none
  | some payload =>
      let pl := payload.toList
      match findSub ("user=".toList) pl, findSub ("password=".toList) pl with
      | some user_pos, some pass_pos =>
          let user_end : Option Nat :=
            match (scanIdx (fun c => c = '&') (pl.drop user_pos)).map
                (· + user_pos) with
            | some e => some e
            | none => if pass_pos = 0 then none else some (pass_pos - 1)
          let name : List Char :=
            match user_end with
            | none => pl.drop (user_pos + 5)
            | some e =>
                if user_pos + 5 ≤ e then
                  (pl.drop (user_pos + 5)).take (e - (user_pos + 5))
                else pl.drop (user_pos + 5)
          let password : List Char := pl.drop (pass_pos + 9)
          let nameS : String := ⟨name⟩
          if url.toList.getD 1 ' ' = '3' then
            if (lookupUser users nameS).isNone then
              let users2 := users ++ [(nameS, ⟨password⟩)]
              if sqlInsertOk then
                some ("/pages/log.html", logged_in, st, users2)
              else some ("/pages/registerError.html", logged_in, st, users2)
            else some ("/pages/registerError.html", logged_in, st, users)
          else if url.toList.getD 1 ' ' = '2' then
            if lookupUser users nameS = some ⟨password⟩ then
              some ("/pages/welcome.html", true,
                { st with
                  m_username := nameS,
                  m_extra_headers := st.m_extra_headers ++
                    "Set-Cookie: ws_user=" ++ nameS ++ "; Path=/\r\n" },
                users)
            else some ("/pages/logError.html", logged_in, st, users)
          else some (url, logged_in, st, users)
      | _, _ => none

/-- The alias table of `do_request` (legacy page names). -/
def alias_url (url : String) : String :=
  if url = "/register.html" then "/pages/register.html"
  else if url = "/log.html" then "/pages/log.html"
  else if url = "/welcome.html" then "/pages/welcome.html"
  else if url = "/picture.html" ∨ url = "/video.html" ∨
      url = "/pages/picture.html" ∨ url = "/pages/video.html" then
    "/uploads/list"
  else if url = "/upload.html" then "/pages/upload.html"
  else if url = "/status.html" then "/pages/status.html"
  else url

/-- The two-character shortcut table of `do_request` (`/0` … `/9`). -/
def shortcut_url (url : String) : String :=
  if url.length = 2 ∧ url.toList.headI = '/' then
    match url.toList.getD 1 ' ' with
    | '0' => "/pages/register.html"
    | '1' => "/pages/log.html"
    | '5' => "/uploads/list"
    | '6' => "/uploads/list"
    | '8' => "/index.html"
    | '9' => "/404.html"
    | _ => url
  else url

/-- The endpoint dispatch of `do_request` after URL normalisation, the
cookie check and the form handling. -/
def dispatch_url (url : String) (logged_in : Bool)
    (users : List (String × String)) (st : http_conn) :
    ReqAction × http_conn × List (String × String) :=
  if url = "/logout" then
    (.ret .DYNAMIC_REQUEST, { st with
      m_response_status := 302,
      m_extra_headers := st.m_extra_headers ++
        "Set-Cookie: ws_user=; Path=/; Max-Age=0\r\n" ++
        "Location: /pages/log.html\r\n",
      m_dynamic_content_type := "text/html; charset=utf-8",
      m_dynamic_content := build_page_shell titleLogout bodyLogout }, users)
  else if url = "/status.json" then
    if logged_in then (.statusJson, st, users)
    else (.ret .DYNAMIC_REQUEST, redirect_login st, users)
  else if url = "/upload" ∧ ¬ logged_in then
    (.ret .DYNAMIC_REQUEST, redirect_login st, users)
  else if url = "/upload" ∧ st.m_method = .POST then
    (.uploadPost, st, users)
  else
    let url := if url = "/upload" then "/pages/upload.html" else url
    if url = "/uploads/delete" then
      if logged_in then (.uploadDelete, st, users)
      else (.ret .DYNAMIC_REQUEST, redirect_login st, users)
    else if url = "/uploads/list" then
      if logged_in then (.uploadList, st, users)
      else (.ret .DYNAMIC_REQUEST, redirect_login st, users)
    else if swL url "/uploads/" then
      if logged_in then (.uploadFetch ⟨url.toList.drop 9⟩, st, users)
      else (.ret .DYNAMIC_REQUEST, redirect_login st, users)
    else if (url = "/pages/status.html" ∨ url = "/pages/upload.html" ∨
        url = "/pages/welcome.html") ∧ ¬ logged_in then
      (.ret .DYNAMIC_REQUEST, redirect_login st, users)
    else if url = "/pages/welcome.html" then (.welcomePage, st, users)
    else (.fileStage url, st, users)

/-- `http_conn::do_request()` up to its filesystem-dependent tail:
URL decoding and validation (400 on empty, non-`/`-rooted or
`..`-containing URLs), aliasing, the `ws_user` cookie check (an unknown
cookie is cleared with a `Set-Cookie`), the `/2`–`/3` form handling, and
the endpoint dispatch. -/
def do_request (users : List (String × String)) (sqlInsertOk : Bool)
    (st0 : http_conn) : ReqAction × http_conn × List (String × String) :=
  let url1 : String := (st0.m_url).getD "/"
  let url1 := if url1 = "" then "/" else url1
  let url : String := url_decode url1
  if url = "" ∨ url.toList.headI ≠ '/' then (.ret .BAD_REQUEST, st0, users)
  else if containsSub ['.', '.'] url.toList then
    (.ret .BAD_REQUEST, st0, users)
  else
    let url := shortcut_url (alias_url url)
    let cookie_user := get_cookie_value st0.m_cookie "ws_user"
    let logged_in : Bool :=
      !decide (cookie_user = "") && (lookupUser users cookie_user).isSome
    let st1 :=
      if logged_in then { st0 with m_username := cookie_user }
      else if cookie_user = "" then st0
      else
        { st0 with m_extra_headers := st0.m_extra_headers ++
          "Set-Cookie: ws_user=; Path=/; Max-Age=0\r\n" }
    let cgiHit : Bool := decide (st1.cgi = 1) && decide (1 < url.length) &&
      (decide (url.toList.getD 1 ' ' = '2') ||
        decide (url.toList.getD 1 ' ' = '3'))
    match (if cgiHit then login_register users sqlInsertOk url logged_in st1
        else some (url, logged_in, st1, users)) with
    | none => (.ret .BAD_REQUEST, st1, users)
    | some (url2, logged_in2, st2, users2) =>
        dispatch_url url2 logged_in2 users2 st2

/-! ## Static-file tail of `do_request` and the response assembler -/

/-- The outcome of `stat()` on the resolved path, as far as the tail of
`do_request` inspects it. -/
structure FileStat where
  st_size : Nat
  readable_oth : Bool
  is_dir : Bool
deriving DecidableEq, Repr

/-- The extension of the URL (`find_last_of('.')`, lowercased, including
the dot; empty when there is no dot). -/
def urlExt (url : String) : String :=
  let l := url.toList
  match scanIdx (fun c => c = '.') l.reverse with
  | none => ""
  | some ridx => ⟨(l.drop (l.length - 1 - ridx)).map lowerC⟩

/-- The MIME table of `do_request` (extension → `m_content_type`). -/
def mime_of_ext (ext : String) : String :=
  if ext = ".html" ∨ ext = ".htm" then "text/html; charset=utf-8"
  else if ext = ".css" then "text/css; charset=utf-8"
  else if ext = ".js" then "application/javascript; charset=utf-8"
  else if ext = ".json" then "application/json; charset=utf-8"
  else if ext = ".png" then "image/png"
  else if ext = ".jpg" ∨ ext = ".jpeg" then "image/jpeg"
  else if ext = ".gif" then "image/gif"
  else if ext = ".svg" then "image/svg+xml"
  else if ext = ".ico" then "image/x-icon"
  else if ext = ".mp4" then "video/mp4"
  else if ext = ".webm" then "video/webm"
  else if ext = ".ogg" then "video/ogg"
  else if ext = ".pdf" then "application/pdf"
  else "application/octet-stream"

/-- The static-file tail of `do_request` (after the `.php` branch):
`stat`, the `render_not_found` fallback (`notFoundPage` is the content of
`404.html` when that file exists), the world-readable and directory
checks, the MIME table, then `open`/`mmap` and `return FILE_REQUEST`.
The source never checks the results of `open` and `mmap`; `mmapOk`
records whether they succeeded and — exactly as in the source — has no
influence on the outcome. -/
def do_request_static (url : String) (statRes : Option FileStat)
    (notFoundPage : Option String) (mmapOk : Bool) (st : http_conn) :
    HTTP_CODE × http_conn :=
  match statRes with
  | none =>
      match notFoundPage with
      | some content =>
          (.DYNAMIC_REQUEST, { st with
            m_dynamic_content := content,
            m_dynamic_content_type := "text/html; charset=utf-8",
            m_response_status := 404 })
      | none => (.NO_RESOURCE, st)
  | some fs =>
      if ¬ fs.readable_oth then (.FORBIDDEN_REQUEST, st)
      else if fs.is_dir then (.BAD_REQUEST, st)
      else
        let _ := mmapOk
        (.FILE_REQUEST, { st with m_content_type := mime_of_ext (urlExt url) })

/-- `http_conn::WRITE_BUFFER_SIZE` (8 KiB). -/
def WRITE_BUFFER_SIZE : Nat := 8 * 1024

/-- The canned `error_400_form` body (with the source's typo). -/
def error_400_form : String :=
  "Your request has bad syntax or is inherently impossible to staisfy.\n"

/-- The canned `error_403_form` body. -/
def error_403_form : String :=
  "You do not have permission to get file form this server.\n"

/-- The canned `error_404_form` body. -/
def error_404_form : String :=
  "The requested file was not found on this server.\n"

/-- The canned `error_500_form` body. -/
def error_500_form : String :=
  "There was an unusual problem serving the request file.\n"

/-- `status_title` from `http_connection.cpp`. -/
def status_title (status : Nat) : String :=
  if status = 200 then "OK"
  else if status = 302 then "Found"
  else if status = 400 then "Bad Request"
  else if status = 403 then "Forbidden"
  else if status = 404 then "Not Found"
  else if status = 413 then "Payload Too Large"
  else "Internal Error"

/-- `http_conn::add_response`: append to the 8 KiB write buffer, failing
(and leaving `m_write_idx` unchanged) when the formatted text does not
fit below the `vsnprintf` bound. -/
def add_response (w s : String) : Bool × String :=
  if WRITE_BUFFER_SIZE ≤ w.length then (false, w)
  else if WRITE_BUFFER_SIZE - 1 - w.length ≤ s.length then (false, w)
  else (true, w ++ s)

/-- The `ok = ok && add_response(...)` chaining of `add_headers`. -/
def chainAdd (acc : Bool × String) (s : String) : Bool × String :=
  if acc.1 then add_response acc.2 s else acc

/-- The Content-Type chosen by `add_content_type`. -/
def content_type_value (st : http_conn) : String :=
  let t := if st.m_dynamic_content_type ≠ "" then st.m_dynamic_content_type
    else st.m_content_type
  if t ≠ "" then t else "text/html; charset=utf-8"

/-- `http_conn::add_status_line(status, title)`. -/
def add_status_line (w : String) (status : Nat) (title : String) :
    Bool × String :=
  add_response w ("HTTP/1.1 " ++ toString status ++ " " ++ title ++ "\r\n")

/-- `http_conn::add_headers(content_len)`: Content-Length, the extra
headers (Set-Cookie, Location, …), Content-Type, Connection, blank
line. -/
def add_headers (w : String) (content_len : Nat) (st : http_conn) :
    Bool × String :=
  let acc := add_response w ("Content-Length:" ++ toString content_len ++
    "\r\n")
  let acc := if st.m_extra_headers = "" then acc
    else chainAdd acc st.m_extra_headers
  let acc := chainAdd acc ("Content-Type:" ++ content_type_value st ++
    "\r\n")
  let acc := chainAdd acc ("Connection:" ++
    (if st.m_linger then "keep-alive" else "close") ++ "\r\n")
  chainAdd acc "\r\n"

/-- The response `process_write` hands to `writev`: the header bytes in
the write buffer, the number of scatter-gather descriptors, the total
bytes to send, and the body region (empty for header-only responses; the
mapped file and the PHP output are represented by their sizes). -/
structure WriteOut where
  wbuf : String
  ivCount : Nat
  bytesToSend : Nat
  body : String
deriving DecidableEq, Repr

/-- `http_conn::process_write(ret)`.  `fileSize` is
`m_file_stat.st_size` and `phpSize` is `m_php_content_size`; `none`
models `return false` (the connection is closed).  The write buffer
starts empty: `process_write` runs on a freshly `init()`-ed request. -/
def process_write (ret : HTTP_CODE) (st : http_conn)
    (fileSize phpSize : Nat) : Option WriteOut :=
  match ret with
  | .INTERNAL_ERROR =>
      let a1 := add_status_line "" 500 "Internal Error"
      let a2 := add_headers a1.2 error_500_form.length st
      let a3 := add_response a2.2 error_500_form
      if a3.1 then some ⟨a3.2, 1, a3.2.length, ""⟩ else none
  | .BAD_REQUEST =>
      let a1 := add_status_line "" 400 "Bad Request"
      let a2 := add_headers a1.2 error_400_form.length st
      let a3 := add_response a2.2 error_400_form
      if a3.1 then some ⟨a3.2, 1, a3.2.length, ""⟩ else none
  | .NO_RESOURCE =>
      let a1 := add_status_line "" 404 "Not Found"
      let a2 := add_headers a1.2 error_404_form.length st
      let a3 := add_response a2.2 error_404_form
      if a3.1 then some ⟨a3.2, 1, a3.2.length, ""⟩ else none
  | .FORBIDDEN_REQUEST =>
      let a1 := add_status_line "" 403 "Forbidden"
      let a2 := add_headers a1.2 error_403_form.length st
      let a3 := add_response a2.2 error_403_form
      if a3.1 then some ⟨a3.2, 1, a3.2.length, ""⟩ else none
  | .DYNAMIC_REQUEST =>
      let body := st.m_dynamic_content
      let a1 := add_status_line "" st.m_response_status
        (status_title st.m_response_status)
      let a2 := add_headers a1.2 body.length st
      if body = "" then some ⟨a2.2, 1, a2.2.length, ""⟩
      else some ⟨a2.2, 2, a2.2.length + body.length, body⟩
  | .FILE_REQUEST =>
      let a1 := add_status_line "" 200 "OK"
      if fileSize ≠ 0 then
        let a2 := add_headers a1.2 fileSize st
        some ⟨a2.2, 2, a2.2.length + fileSize, ""⟩
      else
        let a2 := add_headers a1.2 "<html><body></body></html>".length st
        let a3 := add_response a2.2 "<html><body></body></html>"
        if a3.1 then some ⟨a3.2, 1, a3.2.length, ""⟩ else none
  | .PHP_REQUEST =>
      let a1 := add_status_line "" 200 "OK"
      if phpSize > 0 then
        let a2 := add_headers a1.2 phpSize st
        some ⟨a2.2, 2, a2.2.length + phpSize, ""⟩
      else
        let a2 := add_headers a1.2 "<html><body></body></html>".length st
        let a3 := add_response a2.2 "<html><body></body></html>"
        if a3.1 then some ⟨a3.2, 1, a3.2.length, ""⟩ else none
  | _ => none

/-- The authenticated endpoints of `do_request` (after aliasing): each of
these checks `logged_in` before doing anything else. -/
def requiresAuth (url : String) : Prop :=
  url = "/status.json" ∨ url = "/upload" ∨ url = "/uploads/delete" ∨
  url = "/uploads/list" ∨ swL url "/uploads/" = true ∨
  url = "/pages/status.html" ∨ url = "/pages/upload.html" ∨
  url = "/pages/welcome.html"

/-! ## Lemmas and claim theorems -/

theorem normalize_client_ip_local : normalize_client_ip "local" = "local" := by
  decide

theorem normalize_client_ip_empty : normalize_client_ip "" = "" := rfl

/-- C10: `normalize_client_ip` is idempotent; every output is the empty
string, the sentinel `"local"` (produced for `::1`, the `is_private_ipv4`
ranges and `fe80:` link-local addresses), or the input itself, and each of
these outputs is a fixed point. -/
theorem normalize_client_ip_idem_range (s : String) :
    normalize_client_ip (normalize_client_ip s) = normalize_client_ip s ∧
    (normalize_client_ip s = "" ∨ normalize_client_ip s = "local" ∨
      normalize_client_ip s = s) ∧
    normalize_client_ip "" = "" ∧ normalize_client_ip "local" = "local" ∧
    ((s = "::1" ∨ is_private_ipv4 s = true ∨ swL s "fe80:" = true) → s ≠ "" →
      normalize_client_ip s = "local") := by
  have tri : normalize_client_ip s = "" ∨ normalize_client_ip s = "local" ∨
      normalize_client_ip s = s := by
    unfold normalize_client_ip
    split_ifs <;> simp
  refine ⟨?_, tri, rfl, normalize_client_ip_local, ?_⟩
  · rcases tri with h | h | h
    · rw [h]; rfl
    · rw [h]; exact normalize_client_ip_local
    · rw [h]; exact h
  · intro hbr hne
    unfold normalize_client_ip
    split_ifs with h1 h2 h3 h4
    · exact absurd h1 hne
    · rfl
    · rfl
    · rfl
    · rcases hbr with h | h | h
      · exact absurd h h2
      · exact absurd h (by simpa using h3)
      · exact absurd h (by simpa using h4)

/-- Witness for C10: the theorem applied at the concrete private address
`10.1.2.3`, discharging the conditional conjunct. -/
theorem normalize_client_ip_idem_range_witness :
    normalize_client_ip "10.1.2.3" = "local" :=
  (normalize_client_ip_idem_range "10.1.2.3").2.2.2.2
    (Or.inr (Or.inl (by decide))) (by decide)

theorem ins_timer_perm (t : util_timer) (l : List util_timer) :
    List.Perm (ins_timer t l) (t :: l) := by
  induction l with
  | nil => simp [ins_timer]
  | cons x xs ih =>
      simp only [ins_timer]
      split
      · exact List.Perm.refl _
      · exact (ih.cons x).trans (List.Perm.swap t x xs)

theorem mem_ins_timer {a t : util_timer} {l : List util_timer} :
    a ∈ ins_timer t l ↔ a = t ∨ a ∈ l := by
  rw [(ins_timer_perm t l).mem_iff, List.mem_cons]

theorem ins_timer_sorted (t : util_timer) {l : List util_timer}
    (hl : timersSorted l) : timersSorted (ins_timer t l) := by
  induction l with
  | nil => simp [ins_timer, timersSorted]
  | cons x xs ih =>
      rcases List.pairwise_cons.mp hl with ⟨hx, hxs⟩
      simp only [ins_timer]
      split
      next hlt =>
        refine List.pairwise_cons.mpr ⟨?_, hl⟩
        intro b hb
        rcases List.mem_cons.mp hb with rfl | hb
        · exact le_of_lt hlt
        · exact le_trans (le_of_lt hlt) (hx b hb)
      next hge =>
        refine List.pairwise_cons.mpr ⟨?_, ih hxs⟩
        intro b hb
        rcases mem_ins_timer.mp hb with rfl | hb
        · exact le_of_not_lt hge
        · exact hx b hb

theorem add_timer_eq_ins (t : util_timer) (l : List util_timer) :
    add_timer t l = ins_timer t l := by
  cases l with
  | nil => rfl
  | cons h rest =>
      simp only [add_timer, ins_timer]

theorem adjust_timer_sorted (pre : List util_timer) (t : util_timer)
    (suf : List util_timer) (hpre : ∀ x ∈ pre, x.expire ≤ t.expire)
    (hps : timersSorted (pre ++ suf)) :
    timersSorted (adjust_timer pre t suf) := by
  rcases List.pairwise_append.mp hps with ⟨hp, hsuf, hcross⟩
  cases suf with
  | nil =>
      refine List.pairwise_append.mpr ⟨hp, List.pairwise_singleton _ _, ?_⟩
      intro a ha b hb
      rcases List.mem_singleton.mp hb with rfl
      exact hpre a ha
  | cons s rest =>
      rcases List.pairwise_cons.mp hsuf with ⟨hs, hrest⟩
      simp only [adjust_timer]
      split
      next hlt =>
        refine List.pairwise_append.mpr ⟨hp, ?_, ?_⟩
        · refine List.pairwise_cons.mpr ⟨?_, hsuf⟩
          intro b hb
          rcases List.mem_cons.mp hb with rfl | hb
          · exact le_of_lt hlt
          · exact le_trans (le_of_lt hlt) (hs b hb)
        · intro a ha b hb
          rcases List.mem_cons.mp hb with rfl | hb
          · exact hpre a ha
          · exact hcross a ha b hb
      next hge =>
        refine List.pairwise_append.mpr ⟨hp, ?_, ?_⟩
        · refine List.pairwise_cons.mpr ⟨?_, ins_timer_sorted t hrest⟩
          intro b hb
          rcases mem_ins_timer.mp hb with rfl | hb
          · exact le_of_not_lt hge
          · exact hs b hb
        · intro a ha b hb
          rcases List.mem_cons.mp hb with rfl | hb
          · exact hcross a ha b (List.mem_cons_self _ _)
          · rcases mem_ins_timer.mp hb with rfl | hb
            · exact hpre a ha
            · exact hcross a ha b (List.mem_cons_of_mem s hb)

theorem adjust_timer_perm (pre : List util_timer) (t : util_timer)
    (suf : List util_timer) :
    List.Perm (adjust_timer pre t suf) (pre ++ t :: suf) := by
  cases suf with
  | nil => simp [adjust_timer]
  | cons s rest =>
      simp only [adjust_timer]
      split
      · exact List.Perm.refl _
      · refine List.Perm.append_left pre ?_
        exact ((ins_timer_perm t rest).cons s).trans (List.Perm.swap t s rest)

theorem del_timer_sorted (pre : List util_timer) (x : util_timer)
    (suf : List util_timer) (h : timersSorted (pre ++ x :: suf)) :
    timersSorted (del_timer pre suf) :=
  List.Pairwise.sublist (((List.Sublist.refl suf).cons x).append_left pre) h

theorem tick_eq_spans (now : Int) (l : List util_timer) :
    tick now l = (l.takeWhile (fun a => decide (a.expire ≤ now)),
      l.dropWhile (fun a => decide (a.expire ≤ now))) := by
  induction l with
  | nil => simp [tick]
  | cons t rest ih =>
      simp only [tick, List.takeWhile_cons, List.dropWhile_cons]
      split
      next h =>
        have : (decide (t.expire ≤ now)) = false := by
          simp [not_le.mpr h]
        simp [this]
      next h =>
        have : (decide (t.expire ≤ now)) = true := by
          simp [le_of_not_lt h]
        simp [this, ih]

theorem takeWhile_expired_eq_filter (now : Int) {l : List util_timer}
    (hl : timersSorted l) :
    l.takeWhile (fun a => decide (a.expire ≤ now)) =
      l.filter (fun a => decide (a.expire ≤ now)) := by
  induction l with
  | nil => rfl
  | cons x xs ih =>
      rcases List.pairwise_cons.mp hl with ⟨hx, hxs⟩
      by_cases hpx : x.expire ≤ now
      · simp [List.takeWhile_cons, List.filter_cons, hpx, ih hxs]
      · have hnil : xs.filter (fun a => decide (a.expire ≤ now)) = [] := by
          refine List.filter_eq_nil_iff.mpr ?_
          intro a ha
          simp only [decide_eq_true_eq]
          exact fun hle => hpx (le_trans (hx a ha) hle)
        simp [List.takeWhile_cons, List.filter_cons, hpx, hnil]

theorem dropWhile_expired_eq_filter (now : Int) {l : List util_timer}
    (hl : timersSorted l) :
    l.dropWhile (fun a => decide (a.expire ≤ now)) =
      l.filter (fun a => decide (now < a.expire)) := by
  induction l with
  | nil => rfl
  | cons x xs ih =>
      rcases List.pairwise_cons.mp hl with ⟨hx, hxs⟩
      by_cases hpx : x.expire ≤ now
      · have : ¬ now < x.expire := not_lt.mpr hpx
        simp [List.dropWhile_cons, List.filter_cons, hpx, this, ih hxs]
      · have hall : xs.filter (fun a => decide (now < a.expire)) = xs := by
          refine List.filter_eq_self.mpr ?_
          intro a ha
          simp only [decide_eq_true_eq]
          exact lt_of_lt_of_le (not_le.mp hpx) (hx a ha)
        simp [List.dropWhile_cons, List.filter_cons, hpx, not_le.mp hpx, hall]

/-- C8: every timer-list operation preserves ascending expiry order —
`add_timer` inserts keeping the entries, `adjust_timer` repositions an
entry whose expiry has been advanced (so it is at least every expiry before
it), `del_timer` unlinks — and `tick` fires and unlinks exactly the maximal
prefix of entries with expiry at most the current time, stopping at the
first non-expired entry. -/
theorem timer_list_preserves_order (t tadj x : util_timer)
    (l pre suf : List util_timer) (now : Int) :
    (timersSorted l →
      timersSorted (add_timer t l) ∧ List.Perm (add_timer t l) (t :: l)) ∧
    ((∀ y ∈ pre, y.expire ≤ tadj.expire) → timersSorted (pre ++ suf) →
      timersSorted (adjust_timer pre tadj suf) ∧
      List.Perm (adjust_timer pre tadj suf) (pre ++ tadj :: suf)) ∧
    (timersSorted (pre ++ x :: suf) → timersSorted (del_timer pre suf)) ∧
    (tick now l).1 = l.takeWhile (fun a => decide (a.expire ≤ now)) ∧
    (tick now l).2 = l.dropWhile (fun a => decide (a.expire ≤ now)) ∧
    (timersSorted l →
      (tick now l).1 = l.filter (fun a => decide (a.expire ≤ now)) ∧
      (tick now l).2 = l.filter (fun a => decide (now < a.expire)) ∧
      (tick now l).1 ++ (tick now l).2 = l) := by
  refine ⟨?_, ?_, del_timer_sorted pre x suf, ?_, ?_, ?_⟩
  · intro hl
    rw [add_timer_eq_ins]
    exact ⟨ins_timer_sorted t hl, ins_timer_perm t l⟩
  · intro hpre hps
    exact ⟨adjust_timer_sorted pre tadj suf hpre hps,
      adjust_timer_perm pre tadj suf⟩
  · rw [tick_eq_spans]
  · rw [tick_eq_spans]
  · intro hl
    refine ⟨?_, ?_, ?_⟩
    · rw [tick_eq_spans]; exact takeWhile_expired_eq_filter now hl
    · rw [tick_eq_spans]; exact dropWhile_expired_eq_filter now hl
    · rw [tick_eq_spans]
      simp

/-- Witness for C8: the theorem applied to concrete two-element lists,
discharging the sortedness and advanced-expiry hypotheses. -/
theorem timer_list_preserves_order_witness :
    (timersSorted (add_timer ⟨2, 7⟩ [⟨1, 0⟩, ⟨3, 1⟩]) ∧
      List.Perm (add_timer ⟨2, 7⟩ [⟨1, 0⟩, ⟨3, 1⟩])
        (⟨2, 7⟩ :: [⟨1, 0⟩, ⟨3, 1⟩])) ∧
    (timersSorted (adjust_timer [⟨1, 0⟩] ⟨5, 2⟩ [⟨3, 1⟩]) ∧
      List.Perm (adjust_timer [⟨1, 0⟩] ⟨5, 2⟩ [⟨3, 1⟩])
        ([⟨1, 0⟩] ++ ⟨5, 2⟩ :: [⟨3, 1⟩])) :=
  ⟨(timer_list_preserves_order ⟨2, 7⟩ ⟨5, 2⟩ ⟨2, 9⟩ [⟨1, 0⟩, ⟨3, 1⟩] [⟨1, 0⟩]
      [⟨3, 1⟩] 2).1 (by unfold timersSorted; decide),
   (timer_list_preserves_order ⟨2, 7⟩ ⟨5, 2⟩ ⟨2, 9⟩ [⟨1, 0⟩, ⟨3, 1⟩] [⟨1, 0⟩]
      [⟨3, 1⟩] 2).2.1 (by decide) (by unfold timersSorted; decide)⟩

theorem strncaseEqL_take {text lit1 lit2 : List Char}
    (hlen : lit2.length ≤ lit1.length)
    (h : strncaseEqL text lit1 = true) :
    strncaseEqL text lit2 =
      ((lit1.map lowerC).take lit2.length == lit2.map lowerC) := by
  unfold strncaseEqL at h ⊢
  have heq : (text.take lit1.length).map lowerC = lit1.map lowerC := by
    simpa using h
  have ht : text.take lit2.length =
      (text.take lit1.length).take lit2.length := by
    rw [List.take_take, Nat.min_eq_left hlen]
  rw [ht, List.map_take, heq, ← List.map_take]

theorem content_length_line_shape {text : List Char}
    (h : strncaseEqL text ("Content-length:".toList) = true) :
    text ≠ [] ∧ strncaseEqL text ("Connection:".toList) = false := by
  constructor
  · intro he
    rw [he] at h
    exact absurd h (by decide)
  · rw [strncaseEqL_take (by decide) h]
    decide

/-- C1: a `Content-Length` header line whose value exceeds 200 MiB makes
`parse_headers` immediately return a 413 dynamic response (the built 413
page, status 413) and leave the read buffer size unchanged. -/
theorem content_length_over_cap_yields_413 (text : List Char)
    (st : http_conn)
    (hcl : strncaseEqL text ("Content-length:".toList) = true)
    (hover : atolM (spnSpTab (text.drop 15)) > kMaxBodySize) :
    (parse_headers text st).1 = HTTP_CODE.DYNAMIC_REQUEST ∧
    (parse_headers text st).2.m_response_status = 413 ∧
    (parse_headers text st).2.readBufSize = st.readBufSize ∧
    (parse_headers text st).2.m_dynamic_content =
      build_page_shell title413 body413 := by
  obtain ⟨hne, hconn⟩ := content_length_line_shape hcl
  simp only [parse_headers, hne, hconn, hcl, if_true, if_false,
    Bool.false_eq_true, ite_true, ite_false, if_neg hne]
  rw [if_pos hover]
  exact ⟨rfl, rfl, rfl, rfl⟩

/-- Witness for C1: the boundary request `Content-Length: 209715201`
(one byte over 200 MiB) against a fresh connection. -/
theorem content_length_over_cap_yields_413_witness :
    (parse_headers ("Content-Length: 209715201".toList) conn0).1 =
      HTTP_CODE.DYNAMIC_REQUEST ∧
    (parse_headers ("Content-Length: 209715201".toList)
      conn0).2.m_response_status = 413 ∧
    (parse_headers ("Content-Length: 209715201".toList)
      conn0).2.readBufSize = conn0.readBufSize ∧
    (parse_headers ("Content-Length: 209715201".toList)
      conn0).2.m_dynamic_content = build_page_shell title413 body413 :=
  content_length_over_cap_yields_413 _ conn0 (by decide) (by decide)

theorem castSizeT_small {L : Int} (h0 : 0 ≤ L) (h : L ≤ kMaxBodySize) :
    castSizeT L = L.toNat := by
  unfold castSizeT
  rw [Int.emod_eq_of_lt h0]
  exact lt_of_le_of_lt h (by decide)

/-- C2 (amended): after a successful `Content-Length` parse with value
`0 ≤ L ≤ 200 MiB`, the read buffer size becomes
`max old (min (L + 4096) (2 * READ_BUFFER_SIZE))`: the resize targets
body + 4096 slack but is capped at 20 MiB and ignores the parse cursor,
so the buffer never shrinks here but need not fit the whole body. -/
theorem parse_headers_resize_capped (text : List Char) (st : http_conn)
    (hcl : strncaseEqL text ("Content-length:".toList) = true)
    (h0 : 0 ≤ atolM (spnSpTab (text.drop 15)))
    (hle : atolM (spnSpTab (text.drop 15)) ≤ kMaxBodySize) :
    (parse_headers text st).1 = HTTP_CODE.NO_REQUEST ∧
    (parse_headers text st).2.m_content_length =
      atolM (spnSpTab (text.drop 15)) ∧
    (parse_headers text st).2.readBufSize =
      max st.readBufSize
        (min ((atolM (spnSpTab (text.drop 15))).toNat + 4096)
          (READ_BUFFER_SIZE * 2)) ∧
    st.readBufSize ≤ (parse_headers text st).2.readBufSize := by
  obtain ⟨hne, hconn⟩ := content_length_line_shape hcl
  have hcast : (castSizeT (atolM (spnSpTab (text.drop 15))) + 4096) %
      sizeTMod = (atolM (spnSpTab (text.drop 15))).toNat + 4096 := by
    rw [castSizeT_small h0 hle]
    refine Nat.mod_eq_of_lt ?_
    have : (atolM (spnSpTab (text.drop 15))).toNat ≤ kMaxBodySize.toNat :=
      Int.toNat_le_toNat hle
    calc (atolM (spnSpTab (text.drop 15))).toNat + 4096
        ≤ kMaxBodySize.toNat + 4096 := by omega
      _ < sizeTMod := by decide
  simp only [parse_headers, hne, hconn, hcl, if_true, if_false,
    Bool.false_eq_true, ite_true, ite_false, if_neg hne]
  rw [if_neg (not_lt.mpr hle), hcast]
  refine ⟨?_, ?_, ?_, ?_⟩
  · split <;> rfl
  · split <;> rfl
  · split
    next hgt => simp; omega
    next hngt => simp; omega
  · split
    next hgt => simp; omega
    next hngt => simp

/-- Witness for C2 (amended): `Content-Length: 1000` against a fresh
connection leaves the 10 MiB buffer unchanged
(`max 10485760 (min 5096 20971520)`). -/
theorem parse_headers_resize_capped_witness :
    (parse_headers ("Content-Length: 1000".toList) conn0).1 =
      HTTP_CODE.NO_REQUEST ∧
    (parse_headers ("Content-Length: 1000".toList)
      conn0).2.m_content_length =
      atolM (spnSpTab (("Content-Length: 1000".toList).drop 15)) ∧
    (parse_headers ("Content-Length: 1000".toList) conn0).2.readBufSize =
      max conn0.readBufSize
        (min ((atolM (spnSpTab (("Content-Length: 1000".toList).drop
          15))).toNat + 4096) (READ_BUFFER_SIZE * 2)) ∧
    conn0.readBufSize ≤
      (parse_headers ("Content-Length: 1000".toList) conn0).2.readBufSize :=
  parse_headers_resize_capped _ conn0 (by decide) (by decide) (by decide)

/-- C2 counterexample: `Content-Length: 209715200` (exactly 200 MiB) is
accepted, but the buffer is resized only to 20 MiB — far below
`parse_cursor + L + 1` even for the smallest possible cursor 0 — so the
claimed capacity bound fails at header-parse time. -/
theorem parse_headers_resize_cex :
    (parse_headers ("Content-Length: 209715200".toList) conn0).1 =
      HTTP_CODE.NO_REQUEST ∧
    (parse_headers ("Content-Length: 209715200".toList)
      conn0).2.m_content_length = 209715200 ∧
    (209715200 : Int) ≤ kMaxBodySize ∧
    (parse_headers ("Content-Length: 209715200".toList)
      conn0).2.readBufSize = 20971520 ∧
    (parse_headers ("Content-Length: 209715200".toList)
      conn0).2.readBufSize < 0 + 209715200 + 1 := by
  decide

/-- C3 (amended): the read buffer is (re)initialised to 10 MiB — not
64 KiB — by `http_conn::init()`, on fresh connections and keep-alive
reuse alike; between resets `grow_read_buffer` only ever grows it, by
doubling with a minimum step of 4096, clamped to 200 MiB + 4 KiB, and
refuses to grow past that cap. -/
theorem read_buffer_policy :
    initReadBufSize = 10 * 1024 * 1024 ∧
    maxReadBufSize = 200 * 1024 * 1024 + 4096 ∧
    (∀ n m, grow_read_buffer n = some m →
      n < m ∧ m ≤ maxReadBufSize ∧
      m = min maxReadBufSize (max (n * 2) (n + 4096))) ∧
    (∀ n, maxReadBufSize ≤ n → grow_read_buffer n = none) := by
  refine ⟨rfl, rfl, ?_, ?_⟩
  · intro n m h
    unfold grow_read_buffer at h
    split at h
    next => exact absurd h (by simp)
    next hge =>
      dsimp only at h
      rw [Option.some.injEq] at h
      have hlt : n < maxReadBufSize := not_le.mp hge
      split_ifs at h <;> omega
  · intro n hn
    unfold grow_read_buffer
    rw [if_pos hn]

/-- Witness for C3 (amended): one growth step from the initial 10 MiB
doubles the buffer to 20 MiB. -/
theorem read_buffer_policy_witness :
    10485760 < 20971520 ∧ (20971520 : Nat) ≤ maxReadBufSize ∧
    (20971520 : Nat) = min maxReadBufSize (max (10485760 * 2)
      (10485760 + 4096)) :=
  read_buffer_policy.2.2.1 10485760 20971520 (by decide)

/-- C3 counterexample: the buffer size installed by `init()` is 10 MiB,
not the 64 KiB the claim states. -/
theorem read_buffer_init_size_cex :
    initReadBufSize = 10485760 ∧ initReadBufSize ≠ 64 * 1024 := by
  decide

theorem parse_line_skip (buf : List Char) (read : Nat) :
    ∀ n checked j, j - checked = n → checked ≤ j → j ≤ read →
      (∀ i, checked ≤ i → i < j →
        ¬(buf.getD i ' ' = '\r') ∧ ¬(buf.getD i ' ' = '\n')) →
      parse_line buf checked read = parse_line buf j read := by
  intro n
  induction n with
  | zero =>
      intro checked j hn h1 h2 h3
      have : checked = j := by omega
      rw [this]
  | succ k ih =>
      intro checked j hn h1 h2 h3
      have hcj : checked < j := by omega
      have hcr : checked < read := lt_of_lt_of_le hcj h2
      obtain ⟨hnr, hnn⟩ := h3 checked le_rfl hcj
      rw [parse_line]
      rw [dif_pos hcr]
      simp only [if_neg hnr, if_neg hnn]
      exact ih (checked + 1) j (by omega) (by omega) h2
        (fun i hi1 hi2 => h3 i (by omega) hi2)

theorem parse_line_cr_end {buf : List Char} {j read : Nat}
    (hjr : j < read) (hc : buf.getD j ' ' = '\r') (hend : j + 1 = read) :
    parse_line buf j read = (.LINE_OPEN, buf, j) := by
  rw [parse_line, dif_pos hjr]
  have hc2 : buf[j]?.getD ' ' = '\r' := by
    rw [← List.getD_eq_getElem?_getD]; exact hc
  simp [hc2, hend]

theorem parse_line_cr_bad {buf : List Char} {j read : Nat}
    (hjr : j < read) (hc : buf.getD j ' ' = '\r') (hmid : j + 1 < read)
    (hnn : ¬(buf.getD (j + 1) ' ' = '\n')) :
    parse_line buf j read = (.LINE_BAD, buf, j) := by
  rw [parse_line, dif_pos hjr]
  have hne : ¬(j + 1 = read) := by omega
  have hc2 : buf[j]?.getD ' ' = '\r' := by
    rw [← List.getD_eq_getElem?_getD]; exact hc
  have hnn2 : ¬(buf[j + 1]?.getD ' ' = '\n') := by
    rw [← List.getD_eq_getElem?_getD]; exact hnn
  simp [hc2, hne, hnn2]

theorem parse_line_crlf_ok {buf : List Char} {j read : Nat}
    (hjr : j < read) (hc : buf.getD j ' ' = '\r') (hmid : j + 1 < read)
    (hn : buf.getD (j + 1) ' ' = '\n') :
    parse_line buf j read =
      (.LINE_OK, (buf.set j '\x00').set (j + 1) '\x00', j + 2) := by
  rw [parse_line, dif_pos hjr]
  have hne : ¬(j + 1 = read) := by omega
  have hc2 : buf[j]?.getD ' ' = '\r' := by
    rw [← List.getD_eq_getElem?_getD]; exact hc
  have hn2 : buf[j + 1]?.getD ' ' = '\n' := by
    rw [← List.getD_eq_getElem?_getD]; exact hn
  simp [hc2, hne, hn2]

theorem parse_line_lf_bad {buf : List Char} {j read : Nat}
    (hjr : j < read) (hc : buf.getD j ' ' = '\n')
    (hprev : j ≤ 1 ∨ ¬(buf.getD (j - 1) ' ' = '\r')) :
    parse_line buf j read = (.LINE_BAD, buf, j) := by
  rw [parse_line, dif_pos hjr]
  have hc2 : buf[j]?.getD ' ' = '\n' := by
    rw [← List.getD_eq_getElem?_getD]; exact hc
  have hcr2 : ¬(buf[j]?.getD ' ' = '\r') := by
    rw [hc2]; decide
  have hcond : ¬(1 < j ∧ buf[j - 1]?.getD ' ' = '\r') := by
    rcases hprev with h | h
    · exact fun hx => by omega
    · refine fun hx => h ?_
      rw [List.getD_eq_getElem?_getD]; exact hx.2
  simp [hcr2, hc2, hcond]

theorem parse_line_lf_resume_ok {buf : List Char} {j read : Nat}
    (hjr : j < read) (hc : buf.getD j ' ' = '\n') (hj2 : 2 ≤ j)
    (hprev : buf.getD (j - 1) ' ' = '\r') :
    parse_line buf j read =
      (.LINE_OK, (buf.set (j - 1) '\x00').set j '\x00', j + 1) := by
  rw [parse_line, dif_pos hjr]
  have hc2 : buf[j]?.getD ' ' = '\n' := by
    rw [← List.getD_eq_getElem?_getD]; exact hc
  have hcr2 : ¬(buf[j]?.getD ' ' = '\r') := by
    rw [hc2]; decide
  have hprev2 : buf[j - 1]?.getD ' ' = '\r' := by
    rw [← List.getD_eq_getElem?_getD]; exact hprev
  have hcond : 1 < j ∧ buf[j - 1]?.getD ' ' = '\r' := ⟨by omega, hprev2⟩
  simp [hcr2, hc2, hcond]

theorem parse_line_all_plain {buf : List Char} {checked read : Nat}
    (hcr : checked ≤ read)
    (hall : ∀ i, checked ≤ i → i < read →
      ¬(buf.getD i ' ' = '\r') ∧ ¬(buf.getD i ' ' = '\n')) :
    parse_line buf checked read = (.LINE_OPEN, buf, read) := by
  rw [parse_line_skip buf read (read - checked) checked read rfl hcr
    le_rfl hall]
  rw [parse_line, dif_neg (by omega)]

/-- C7: the outcome of `parse_line` on any buffer contents and any cursor
is decided by the first CR or LF byte at or after the cursor: no
terminator before `read` gives OPEN (cursor parked at `read`); a CR as
the last unread byte gives OPEN (cursor still at the CR); a CR followed
by a byte other than LF gives BAD; a CR followed by LF gives OK with both
bytes overwritten by NULs in place and the cursor advanced past them; an
LF whose index is ≤ 1 or whose predecessor is not CR gives BAD; an LF at
index ≥ 2 directly preceded by a CR gives OK with both bytes overwritten
and the cursor advanced past the LF. -/
theorem parse_line_spec (buf : List Char) (checked read j : Nat)
    (hcr : checked ≤ read) :
    ((∀ i, checked ≤ i → i < read →
        ¬(buf.getD i ' ' = '\r') ∧ ¬(buf.getD i ' ' = '\n')) →
      parse_line buf checked read = (.LINE_OPEN, buf, read)) ∧
    (checked ≤ j → j < read →
      (∀ i, checked ≤ i → i < j →
        ¬(buf.getD i ' ' = '\r') ∧ ¬(buf.getD i ' ' = '\n')) →
      ((buf.getD j ' ' = '\r' → j + 1 = read →
        parse_line buf checked read = (.LINE_OPEN, buf, j)) ∧
       (buf.getD j ' ' = '\r' → j + 1 < read →
        ¬(buf.getD (j + 1) ' ' = '\n') →
        parse_line buf checked read = (.LINE_BAD, buf, j)) ∧
       (buf.getD j ' ' = '\r' → j + 1 < read → buf.getD (j + 1) ' ' = '\n' →
        parse_line buf checked read =
          (.LINE_OK, (buf.set j '\x00').set (j + 1) '\x00', j + 2)) ∧
       (buf.getD j ' ' = '\n' → (j ≤ 1 ∨ ¬(buf.getD (j - 1) ' ' = '\r')) →
        parse_line buf checked read = (.LINE_BAD, buf, j)) ∧
       (buf.getD j ' ' = '\n' → 2 ≤ j → buf.getD (j - 1) ' ' = '\r' →
        parse_line buf checked read =
          (.LINE_OK, (buf.set (j - 1) '\x00').set j '\x00', j + 1)))) := by
  constructor
  · exact parse_line_all_plain hcr
  · intro hcj hjr hfirst
    have hskip : parse_line buf checked read = parse_line buf j read :=
      parse_line_skip buf read (j - checked) checked j rfl hcj
        (le_of_lt hjr) hfirst
    refine ⟨?_, ?_, ?_, ?_, ?_⟩
    · intro hc hend
      rw [hskip, parse_line_cr_end hjr hc hend]
    · intro hc hmid hnn
      rw [hskip, parse_line_cr_bad hjr hc hmid hnn]
    · intro hc hmid hn
      rw [hskip, parse_line_crlf_ok hjr hc hmid hn]
    · intro hc hprev
      rw [hskip, parse_line_lf_bad hjr hc hprev]
    · intro hc hj2 hprev
      rw [hskip, parse_line_lf_resume_ok hjr hc hj2 hprev]

/-- Witness for C7: a CRLF at the cursor is consumed, both bytes are
overwritten with NULs, and the cursor advances past them. -/
theorem parse_line_spec_witness :
    parse_line ("\r\nab".toList) 0 4 =
      (LINE_STATUS.LINE_OK,
        ((("\r\nab".toList).set 0 '\x00').set 1 '\x00'), 2) :=
  ((parse_line_spec ("\r\nab".toList) 0 4 0 (by decide)).2 (le_refl 0)
    (by decide) (fun i _ h2 => absurd h2 (Nat.not_lt_zero i))).2.2.1
    (by decide) (by decide) (by decide)

theorem getD_drop (buf : List Char) (s i : Nat) (d : Char) :
    (buf.drop s).getD i d = buf.getD (s + i) d := by
  simp [List.getD_eq_getElem?_getD, List.getElem?_drop]

theorem takeWhile_getD_of_lt {p : Char → Bool} (d : Char) :
    ∀ {l : List Char} {i}, i < (l.takeWhile p).length →
      (l.takeWhile p).getD i d = l.getD i d ∧ p (l.getD i d) = true := by
  intro l
  induction l with
  | nil => intro i h; simp [List.takeWhile] at h
  | cons a l ih =>
      intro i h
      rw [List.takeWhile_cons] at h ⊢
      by_cases hpa : p a = true
      · simp only [hpa, if_true, ite_true] at h ⊢
        cases i with
        | zero => simpa using hpa
        | succ k =>
            have := ih (by simpa using h)
            simpa using this
      · simp [hpa] at h

theorem takeWhile_length_le_of_false {p : Char → Bool} {d : Char} :
    ∀ {l : List Char} {i}, p (l.getD i d) = false →
      (l.takeWhile p).length ≤ i := by
  intro l
  induction l with
  | nil => intro i _; simp [List.takeWhile]
  | cons a l ih =>
      intro i h
      rw [List.takeWhile_cons]
      by_cases hpa : p a = true
      · cases i with
        | zero => simp at h; rw [hpa] at h; exact absurd h (by simp)
        | succ k =>
            simp only [hpa, ite_true, List.length_cons]
            have := ih (i := k) (by simpa using h)
            omega
      · simp [hpa]

theorem takeWhile_stop {p : Char → Bool} {d : Char} :
    ∀ {l : List Char}, (l.takeWhile p).length < l.length →
      p (l.getD (l.takeWhile p).length d) = false := by
  intro l
  induction l with
  | nil => intro h; simp at h
  | cons a l ih =>
      intro h
      rw [List.takeWhile_cons] at h ⊢
      by_cases hpa : p a = true
      · simp only [hpa, ite_true, List.length_cons] at h ⊢
        have := ih (by omega)
        simpa using this
      · simp only [hpa, ite_false, List.length_nil] at h ⊢
        simpa using hpa

theorem takeWhile_len_le {p : Char → Bool} :
    ∀ l : List Char, (l.takeWhile p).length ≤ l.length := by
  intro l
  induction l with
  | nil => simp
  | cons a l ih =>
      rw [List.takeWhile_cons]
      by_cases hpa : p a = true
      · simp only [hpa, ite_true, List.length_cons]
        omega
      · simp [hpa]

theorem scanIdx_some_spec {p : Char → Bool} (d : Char) :
    ∀ {l : List Char} {j}, scanIdx p l = some j →
      j < l.length ∧ p (l.getD j d) = true ∧
        ∀ i, i < j → p (l.getD i d) = false := by
  intro l
  induction l with
  | nil => intro j h; simp [scanIdx] at h
  | cons a l ih =>
      intro j h
      rw [scanIdx] at h
      by_cases hpa : p a = true
      · simp only [hpa, ite_true, Option.some.injEq] at h
        subst h
        exact ⟨by simp, by simpa using hpa, fun i hi => absurd hi (by omega)⟩
      · simp only [hpa, ite_false] at h
        cases hscan : scanIdx p l with
        | none => rw [hscan] at h; simp at h
        | some k =>
            rw [hscan] at h
            simp at h
            subst h
            obtain ⟨h1, h2, h3⟩ := ih hscan
            refine ⟨by simpa using h1, by simpa using h2, ?_⟩
            intro i hi
            cases i with
            | zero => simpa using hpa
            | succ m => simpa using h3 m (by omega)

theorem strpbrkIdx_spec {buf : List Char} {s p : Nat}
    {accept : Char → Bool}
    (h : strpbrkIdx buf s accept = some p) :
    s ≤ p ∧ p < buf.length ∧ accept (buf.getD p ' ') = true ∧
      buf.getD p ' ' ≠ '\x00' ∧
      ∀ i, s ≤ i → i < p →
        (buf.getD i ' ' ≠ '\x00' ∧ accept (buf.getD i ' ') = false) := by
  unfold strpbrkIdx at h
  rw [Option.map_eq_some'] at h
  obtain ⟨j, hj, rfl⟩ := h
  obtain ⟨hlen, hacc, hbefore⟩ := scanIdx_some_spec ' ' hj
  have hreg := takeWhile_getD_of_lt (p := fun c => c ≠ '\x00') ' '
    (l := buf.drop s) (i := j) hlen
  have hregel : (cstrFrom buf s).getD j ' ' = buf.getD (s + j) ' ' := by
    rw [show (cstrFrom buf s) = (buf.drop s).takeWhile
      (fun c => c ≠ '\x00') from rfl, hreg.1, getD_drop]
  have hlenle : (cstrFrom buf s).length ≤ (buf.drop s).length :=
    takeWhile_len_le _
  have hsj : s + j < buf.length := by
    have := List.length_drop s buf
    omega
  refine ⟨Nat.le_add_right s j, hsj, ?_, ?_, ?_⟩
  · rw [← hregel]; exact hacc
  · have := hreg.2
    rw [← getD_drop]
    simpa using this
  · intro i hsi hip
    have hij : i - s < j := by omega
    have hilt : i - s < (cstrFrom buf s).length := by omega
    have hregi := takeWhile_getD_of_lt (p := fun c => c ≠ '\x00') ' '
      (l := buf.drop s) (i := i - s) hilt
    have heq : (buf.drop s).getD (i - s) ' ' = buf.getD i ' ' := by
      rw [getD_drop]; congr 1; omega
    constructor
    · have := hregi.2
      rw [heq] at this
      simpa using this
    · have := hbefore (i - s) hij
      rw [show (cstrFrom buf s).getD (i - s) ' ' =
        (buf.drop s).getD (i - s) ' ' from hregi.1, heq] at this
      exact this

theorem cstr_getD_nonnul {buf : List Char} {s i : Nat}
    (h : i < (cstrFrom buf s).length) :
    buf.getD (s + i) ' ' ≠ '\x00' ∧ s + i < buf.length := by
  have hreg := takeWhile_getD_of_lt (p := fun c => c ≠ '\x00') ' '
    (l := buf.drop s) (i := i) h
  have hlen : (cstrFrom buf s).length ≤ (buf.drop s).length :=
    takeWhile_len_le _
  have hdl := List.length_drop s buf
  constructor
  · have := hreg.2
    rw [getD_drop] at this
    simpa using this
  · omega

theorem cstr_len_le_of_nul {buf : List Char} {s i : Nat}
    (h : buf.getD (s + i) ' ' = '\x00') :
    (cstrFrom buf s).length ≤ i := by
  refine takeWhile_length_le_of_false (d := ' ') ?_
  rw [getD_drop, h]
  simp

theorem cstr_stop_nul {buf : List Char} {s : Nat}
    (h : s + (cstrFrom buf s).length < buf.length) :
    buf.getD (s + (cstrFrom buf s).length) ' ' = '\x00' := by
  have hdl := List.length_drop s buf
  have hlt : (cstrFrom buf s).length < (buf.drop s).length := by omega
  have := takeWhile_stop (p := fun c => c ≠ '\x00') (d := ' ')
    (l := buf.drop s) hlt
  rw [show ((buf.drop s).takeWhile fun c => c ≠ '\x00') = cstrFrom buf s
    from rfl, getD_drop] at this
  simpa using this

theorem strcaseEqL_len {a b : List Char} (h : strcaseEqL a b = true) :
    a.length = b.length := by
  unfold strcaseEqL at h
  rw [beq_iff_eq] at h
  have := congrArg List.length h
  simpa using this

theorem strncaseEqL_len_ge {a lit : List Char}
    (h : strncaseEqL a lit = true) : lit.length ≤ a.length := by
  unfold strncaseEqL at h
  rw [beq_iff_eq] at h
  have := congrArg List.length h
  simp only [List.length_map, List.length_take] at this
  omega

theorem strncase_region {buf : List Char} {s : Nat} {lit : List Char}
    (h : strncaseEqL (cstrFrom buf s) lit = true) :
    ∀ i, i < lit.length → buf.getD (s + i) ' ' ≠ '\x00' := by
  intro i hi
  have hge := strncaseEqL_len_ge h
  exact (cstr_getD_nonnul (lt_of_lt_of_le hi hge)).1

theorem getD_set_ne {buf : List Char} {a i : Nat} {c d : Char}
    (h : i ≠ a) : (buf.set a c).getD i d = buf.getD i d := by
  simp [List.getD_eq_getElem?_getD, List.getElem?_set, h, Ne.symm h]

theorem getD_set_self {buf : List Char} {a : Nat} {c d : Char}
    (h : a < buf.length) : (buf.set a c).getD a d = c := by
  simp [List.getD_eq_getElem?_getD, List.getElem?_set, h]

theorem getD_set_nul_keep {buf : List Char} {a i : Nat} {d : Char}
    (h : buf.getD i d = '\x00') :
    (buf.set a '\x00').getD i d = '\x00' := by
  by_cases hia : i = a
  · subst hia
    by_cases hlen : i < buf.length
    · exact getD_set_self hlen
    · rw [List.set_eq_of_length_le (by omega)]
      exact h
  · rw [getD_set_ne hia]
    exact h

theorem writeAt_length (l : List Char) :
    ∀ (buf : List Char) (pos : Nat), (writeAt buf pos l).length = buf.length := by
  induction l with
  | nil => intro buf pos; rfl
  | cons c cs ih =>
      intro buf pos
      rw [writeAt, ih, List.length_set]

theorem spnIdx_ge (buf : List Char) (s : Nat) : s ≤ spnIdx buf s :=
  Nat.le_add_right s _

theorem strchr_before_nul {buf : List Char} {start qf p2 : Nat}
    (h : strpbrkIdx buf start (fun x => x = '/') = some qf)
    (hstart : start ≤ p2) (hnul : buf.getD p2 ' ' = '\x00') :
    start ≤ qf ∧ qf < p2 ∧ buf.getD qf ' ' = '/' := by
  obtain ⟨hle, hlt, hacc, hnn, hbefore⟩ := strpbrkIdx_spec h
  have hslash : buf.getD qf ' ' = '/' := by simpa using hacc
  refine ⟨hle, ?_, hslash⟩
  by_contra hge
  push_neg at hge
  rcases eq_or_lt_of_le hge with heq | hlt2
  · rw [heq] at hnul
    exact hnn hnul
  · exact (hbefore p2 hstart hlt2).1 hnul

theorem scheme_skip_le {buf2 : List Char} {s p2 : Nat} {lit : List Char}
    (h : strncaseEqL (cstrFrom buf2 s) lit = true)
    (hsp2 : s ≤ p2) (hnul : buf2.getD p2 ' ' = '\x00') :
    s + lit.length ≤ p2 := by
  by_contra hcon
  push_neg at hcon
  have hi : p2 - s < lit.length := by omega
  have := strncase_region h (p2 - s) hi
  rw [show s + (p2 - s) = p2 by omega] at this
  exact this hnul

theorem strip_scheme_range {buf2 : List Char} {u p2 q : Nat}
    (h : strip_scheme buf2 u = some q)
    (hup2 : u ≤ p2) (hnul : buf2.getD p2 ' ' = '\x00') :
    u ≤ q ∧ q ≤ p2 := by
  unfold strip_scheme at h
  by_cases hhttp : strncaseEqL (cstrFrom buf2 u) ("http://".toList) = true
  · rw [if_pos hhttp] at h
    have hskip : u + 7 ≤ p2 := by
      have := scheme_skip_le hhttp hup2 hnul
      simpa using this
    cases hq0 : strchrIdx buf2 (u + 7) '/' with
    | none => rw [hq0] at h; simp at h
    | some qm =>
        rw [hq0] at h
        dsimp only at h
        have hm := strchr_before_nul hq0 hskip hnul
        by_cases hhttps :
            strncaseEqL (cstrFrom buf2 qm) ("https://".toList) = true
        · rw [if_pos hhttps] at h
          have hskip2 : qm + 8 ≤ p2 := by
            have := scheme_skip_le hhttps (le_of_lt hm.2.1) hnul
            simpa using this
          have h2 := strchr_before_nul h hskip2 hnul
          exact ⟨by omega, le_of_lt h2.2.1⟩
        · rw [if_neg hhttps, Option.some.injEq] at h
          subst h
          exact ⟨by omega, le_of_lt hm.2.1⟩
  · rw [if_neg hhttp] at h
    dsimp only at h
    by_cases hhttps : strncaseEqL (cstrFrom buf2 u) ("https://".toList) = true
    · rw [if_pos hhttps] at h
      have hskip2 : u + 8 ≤ p2 := by
        have := scheme_skip_le hhttps hup2 hnul
        simpa using this
      have h2 := strchr_before_nul h hskip2 hnul
      exact ⟨by omega, le_of_lt h2.2.1⟩
    · rw [if_neg hhttps, Option.some.injEq] at h
      subst h
      exact ⟨le_rfl, hup2⟩

theorem finish_url_rooted {buf2 : List Char} {q : Nat} {m : METHOD}
    {cg : Bool} {r : ReqLineOut}
    (h : finish_url buf2 q m cg = some r) (hroot : r.rooted = true) :
    buf2.getD q ' ' = '/' ∧ (cstrFrom buf2 q).length = 1 ∧
    r.buf = writeAt buf2 (q + 1) indexHtmlNul ∧ r.urlIdx = q := by
  unfold finish_url at h
  by_cases hs : buf2.getD q ' ' = '/'
  · rw [if_pos hs] at h
    by_cases hl : (cstrFrom buf2 q).length = 1
    · rw [if_pos hl, Option.some.injEq] at h
      subst h
      exact ⟨hs, hl, rfl, rfl⟩
    · rw [if_neg hl, Option.some.injEq] at h
      subst h
      simp at hroot
  · rw [if_neg hs] at h
    simp at h

theorem version_bound {buf2 : List Char} {v : Nat}
    (hv : strcaseEqL (cstrFrom buf2 v) ("HTTP/1.1".toList) = true)
    (hn : 2 ≤ buf2.length)
    (hnul2 : buf2.getD (buf2.length - 2) ' ' = '\x00')
    (hnul1 : buf2.getD (buf2.length - 1) ' ' = '\x00') :
    v + 8 ≤ buf2.length - 2 := by
  have hlen8 : (cstrFrom buf2 v).length = 8 := by
    have := strcaseEqL_len hv
    simpa using this
  have hreg : ∀ i, i < 8 →
      buf2.getD (v + i) ' ' ≠ '\x00' ∧ v + i < buf2.length := by
    intro i hi
    exact cstr_getD_nonnul (by rw [hlen8]; exact hi)
  have hv0 := hreg 0 (by omega)
  by_contra hcon
  push_neg at hcon
  by_cases hvle : v ≤ buf2.length - 2
  · have hi : buf2.length - 2 - v < 8 := by omega
    have := (hreg (buf2.length - 2 - v) hi).1
    rw [show v + (buf2.length - 2 - v) = buf2.length - 2 by omega] at this
    exact this hnul2
  · have hveq : v = buf2.length - 1 := by omega
    rw [show v + 0 = v by omega] at hv0
    rw [hveq] at hv0
    exact hv0.1 hnul1

/-- C9: for every request line accepted by `parse_request_line` whose URL
is exactly `/` (so the method is GET or POST and the version token equals
`HTTP/1.1` case-insensitively), the in-place `strcat` of `"index.html"`
writes only bytes at offsets strictly below the parse cursor: `buf0` is
the slice of the read buffer from `m_start_line` up to the cursor (its
last two bytes are the NULs `parse_line` wrote over the terminator), the
eleven appended bytes start right after the `/` at the second separator
NUL (`urlIdx + 1`) and end before the slice does, overwriting only the
separator, the 8-byte version token and the terminator NULs; the buffer
length is unchanged, so no byte of a following header line and no byte
outside the read buffer is modified. -/
theorem parse_request_line_root_writes (buf0 : List Char) (r : ReqLineOut)
    (hlen2 : 2 ≤ buf0.length)
    (hnul2 : buf0.getD (buf0.length - 2) ' ' = '\x00')
    (hnul1 : buf0.getD (buf0.length - 1) ' ' = '\x00')
    (h : parse_request_line buf0 = some r)
    (hroot : r.rooted = true) :
    r.urlIdx + 11 < buf0.length ∧ r.buf.length = buf0.length ∧
    ∃ p1, p1 ≤ r.urlIdx ∧
      r.buf = writeAt ((buf0.set p1 '\x00').set (r.urlIdx + 1) '\x00')
        (r.urlIdx + 1) indexHtmlNul := by
  unfold parse_request_line at h
  cases hp1 : strpbrkIdx buf0 0 isSpTab with
  | none => rw [hp1] at h; simp at h
  | some p1 =>
    rw [hp1] at h
    dsimp only at h
    cases hmeth : parse_method (buf0.set p1 '\x00') with
    | none => rw [hmeth] at h; simp at h
    | some mc =>
      obtain ⟨m, cg⟩ := mc
      rw [hmeth] at h
      dsimp only at h
      cases hp2 : strpbrkIdx (buf0.set p1 '\x00')
          (spnIdx (buf0.set p1 '\x00') (p1 + 1)) isSpTab with
      | none => rw [hp2] at h; simp at h
      | some p2 =>
        rw [hp2] at h
        dsimp only at h
        generalize hbuf2eq : (buf0.set p1 '\x00').set p2 '\x00' = buf2 at h
        by_cases hv : strcaseEqL (cstrFrom buf2 (spnIdx buf2 (p2 + 1)))
            ("HTTP/1.1".toList) = true
        swap
        · rw [if_neg hv] at h; simp at h
        rw [if_pos hv] at h
        cases hq : strip_scheme buf2
            (spnIdx (buf0.set p1 '\x00') (p1 + 1)) with
        | none => rw [hq] at h; simp at h
        | some qf =>
          rw [hq] at h
          dsimp only at h
          obtain ⟨hslash, hcl1, hbuf, hurl⟩ := finish_url_rooted h hroot
          obtain ⟨hup2a, hp2lt, hp2acc, hp2nn, hbetween⟩ :=
            strpbrkIdx_spec hp2
          have hl1 : (buf0.set p1 '\x00').length = buf0.length :=
            List.length_set _ _ _
          have hlbuf2 : buf2.length = buf0.length := by
            rw [← hbuf2eq, List.length_set, hl1]
          have hp2nul : buf2.getD p2 ' ' = '\x00' := by
            rw [← hbuf2eq]
            exact getD_set_self hp2lt
          have hqr := strip_scheme_range hq hup2a hp2nul
          have hqltp2 : qf < p2 := by
            rcases eq_or_lt_of_le hqr.2 with heq | hlt
            · exfalso
              rw [heq, hp2nul] at hslash
              exact absurd hslash (by decide)
            · exact hlt
          have hbetween2 : ∀ i,
              spnIdx (buf0.set p1 '\x00') (p1 + 1) ≤ i → i < p2 →
              buf2.getD i ' ' ≠ '\x00' := by
            intro i h1 h2
            rw [← hbuf2eq, getD_set_ne (by omega)]
            exact (hbetween i h1 h2).1
          have hb : qf + (cstrFrom buf2 qf).length < buf2.length := by
            rw [hcl1]
            omega
          have hstop := cstr_stop_nul hb
          rw [hcl1] at hstop
          have hq1p2 : qf + 1 = p2 := by
            by_contra hne
            have hlt : qf + 1 < p2 := by omega
            exact hbetween2 (qf + 1) (by omega) hlt hstop
          have hnul2m : buf2.getD (buf2.length - 2) ' ' = '\x00' := by
            rw [hlbuf2, ← hbuf2eq]
            exact getD_set_nul_keep (getD_set_nul_keep hnul2)
          have hnul1m : buf2.getD (buf2.length - 1) ' ' = '\x00' := by
            rw [hlbuf2, ← hbuf2eq]
            exact getD_set_nul_keep (getD_set_nul_keep hnul1)
          have hvb := version_bound hv (by omega) hnul2m hnul1m
          have hvge : p2 + 1 ≤ spnIdx buf2 (p2 + 1) :=
            spnIdx_ge buf2 (p2 + 1)
          have hu1 : p1 + 1 ≤ spnIdx (buf0.set p1 '\x00') (p1 + 1) :=
            spnIdx_ge _ (p1 + 1)
          refine ⟨?_, ?_, p1, ?_, ?_⟩
          · rw [hurl]
            omega
          · rw [hbuf, writeAt_length, hlbuf2]
          · rw [hurl]
            omega
          · rw [hbuf, hurl, ← hbuf2eq, ← hq1p2]

/-- Witness for C9: the request line `GET / HTTP/1.1` (with the two NULs
`parse_line` wrote over CRLF).  The `strcat` writes `index.html` plus NUL
into offsets 5 through 15, all strictly below the cursor 16. -/
theorem parse_request_line_root_writes_witness :
    (⟨"GET\x00/index.html\x00".toList, 4, METHOD.GET, false,
        true⟩ : ReqLineOut).urlIdx + 11 <
      ("GET / HTTP/1.1\x00\x00".toList).length ∧
    (⟨"GET\x00/index.html\x00".toList, 4, METHOD.GET, false,
        true⟩ : ReqLineOut).buf.length =
      ("GET / HTTP/1.1\x00\x00".toList).length ∧
    ∃ p1, p1 ≤ (⟨"GET\x00/index.html\x00".toList, 4, METHOD.GET, false,
        true⟩ : ReqLineOut).urlIdx ∧
      (⟨"GET\x00/index.html\x00".toList, 4, METHOD.GET, false,
        true⟩ : ReqLineOut).buf =
        writeAt ((("GET / HTTP/1.1\x00\x00".toList).set p1 '\x00').set
          ((⟨"GET\x00/index.html\x00".toList, 4, METHOD.GET, false,
            true⟩ : ReqLineOut).urlIdx + 1) '\x00')
          ((⟨"GET\x00/index.html\x00".toList, 4, METHOD.GET, false,
            true⟩ : ReqLineOut).urlIdx + 1) indexHtmlNul :=
  parse_request_line_root_writes ("GET / HTTP/1.1\x00\x00".toList)
    ⟨"GET\x00/index.html\x00".toList, 4, METHOD.GET, false, true⟩
    (by decide) (by decide) (by decide) (by decide) (by decide)

theorem add_response_ext (w s : String) :
    ∃ t, (add_response w s).2 = w ++ t := by
  unfold add_response
  split_ifs
  · exact ⟨"", by simp⟩
  · exact ⟨"", by simp⟩
  · exact ⟨s, rfl⟩

theorem chainAdd_ext (acc : Bool × String) (s : String) :
    ∃ t, (chainAdd acc s).2 = acc.2 ++ t := by
  unfold chainAdd
  split
  · exact add_response_ext acc.2 s
  · exact ⟨"", by simp⟩

theorem ext_trans {a b c : String} (h1 : ∃ t, b = a ++ t)
    (h2 : ∃ t, c = b ++ t) : ∃ t, c = a ++ t := by
  obtain ⟨t1, rfl⟩ := h1
  obtain ⟨t2, rfl⟩ := h2
  exact ⟨t1 ++ t2, String.append_assoc a t1 t2⟩

theorem add_headers_ext (w : String) (n : Nat) (st : http_conn) :
    ∃ t, (add_headers w n st).2 = w ++ t := by
  unfold add_headers
  dsimp only
  refine ext_trans ?_ (chainAdd_ext _ _)
  refine ext_trans ?_ (chainAdd_ext _ _)
  refine ext_trans ?_ (chainAdd_ext _ _)
  refine ext_trans (add_response_ext w
    ("Content-Length:" ++ toString n ++ "\r\n")) ?_
  split
  · exact ⟨"", by simp⟩
  · exact chainAdd_ext _ _

/-- C5: a request whose percent-decoded URL contains `..` is answered
with `BAD_REQUEST` before any cookie or authentication check, and
whenever `process_write` assembles a `BAD_REQUEST` response its bytes
start with the status line `HTTP/1.1 400 Bad Request`. -/
theorem url_dotdot_gives_400 (users : List (String × String)) (sq : Bool)
    (st : http_conn)
    (hdot : containsSub ['.', '.']
      (url_decode (if (st.m_url).getD "/" = "" then "/"
        else (st.m_url).getD "/")).toList = true) :
    (do_request users sq st).1 = ReqAction.ret HTTP_CODE.BAD_REQUEST ∧
    (∀ (st2 : http_conn) (fs ps : Nat) (w : WriteOut),
      process_write HTTP_CODE.BAD_REQUEST st2 fs ps = some w →
      ∃ t, w.wbuf = "HTTP/1.1 400 Bad Request\r\n" ++ t) := by
  constructor
  · unfold do_request
    dsimp only
    by_cases hemp : (url_decode (if (st.m_url).getD "/" = "" then "/"
        else (st.m_url).getD "/") = "" ∨
        (url_decode (if (st.m_url).getD "/" = "" then "/"
          else (st.m_url).getD "/")).toList.headI ≠ '/')
    · rw [if_pos hemp]
    · rw [if_neg hemp, if_pos hdot]
  · intro st2 fs ps w h
    unfold process_write at h
    dsimp only at h
    have h1 : add_status_line "" 400 "Bad Request" =
        (true, "HTTP/1.1 400 Bad Request\r\n") := by decide
    split at h
    · rw [Option.some.injEq] at h
      subst h
      dsimp only
      refine ext_trans (b := (add_headers
        (add_status_line "" 400 "Bad Request").2 error_400_form.length
          st2).2) ?_ (add_response_ext _ _)
      refine ext_trans (b := (add_status_line "" 400 "Bad Request").2) ?_
        (add_headers_ext _ _ _)
      exact ⟨"", by rw [h1, String.append_empty]⟩
    · simp at h

/-- Witness for C5: `GET /../etc/passwd` with a valid session cookie is
still a 400. -/
theorem url_dotdot_gives_400_witness :
    (do_request [("alice", "secret")] true
      { conn0 with
        m_url := some "/../etc/passwd",
        m_cookie := "ws_user=alice" }).1 =
      ReqAction.ret HTTP_CODE.BAD_REQUEST ∧
    (∀ (st2 : http_conn) (fs ps : Nat) (w : WriteOut),
      process_write HTTP_CODE.BAD_REQUEST st2 fs ps = some w →
      ∃ t, w.wbuf = "HTTP/1.1 400 Bad Request\r\n" ++ t) :=
  url_dotdot_gives_400 [("alice", "secret")] true
    { conn0 with
      m_url := some "/../etc/passwd",
      m_cookie := "ws_user=alice" } (by decide)

theorem getD_append_left {a b : List Char} {i : Nat} {d : Char}
    (h : i < a.length) : (a ++ b).getD i d = a.getD i d := by
  simp [List.getD_eq_getElem?_getD, List.getElem?_append, h]

theorem toList_append (s t : String) :
    (s ++ t).toList = s.toList ++ t.toList := by
  simp [String.toList, String.data_append]

theorem isPrefixOf_exists {l1 : List Char} :
    ∀ {l2 : List Char}, l1.isPrefixOf l2 = true → ∃ t, l2 = l1 ++ t := by
  induction l1 with
  | nil => intro l2 _; exact ⟨l2, rfl⟩
  | cons a as ih =>
      intro l2 h
      cases l2 with
      | nil => simp [List.isPrefixOf] at h
      | cons b bs =>
          simp only [List.isPrefixOf, Bool.and_eq_true, beq_iff_eq] at h
          obtain ⟨rfl, h2⟩ := h
          obtain ⟨t, rfl⟩ := ih h2
          exact ⟨t, rfl⟩

theorem isPrefixOf_self_append (pat b : List Char) :
    pat.isPrefixOf (pat ++ b) = true := by
  induction pat with
  | nil => simp [List.isPrefixOf]
  | cons a as ih => simp [List.isPrefixOf, ih]

theorem containsSub_of_pref {pat l : List Char}
    (h : pat.isPrefixOf l = true) : containsSub pat l = true := by
  cases l with
  | nil =>
      cases pat with
      | nil => decide
      | cons a as => simp [List.isPrefixOf] at h
  | cons c rest =>
      unfold containsSub findSub
      rw [if_pos h]
      rfl

theorem containsSub_cons_of {pat l : List Char} (c : Char)
    (h : containsSub pat l = true) : containsSub pat (c :: l) = true := by
  unfold containsSub findSub
  by_cases hp : pat.isPrefixOf (c :: l) = true
  · rw [if_pos hp]; rfl
  · rw [if_neg hp]
    unfold containsSub at h
    cases hfs : findSub pat l with
    | none => rw [hfs] at h; simp at h
    | some k => simp

theorem containsSub_append_left {pat l : List Char} (a : List Char)
    (h : containsSub pat l = true) : containsSub pat (a ++ l) = true := by
  induction a with
  | nil => simpa using h
  | cons c cs ih => exact containsSub_cons_of c ih

theorem containsSub_sandwich (pat a b : List Char) :
    containsSub pat (a ++ (pat ++ b)) = true :=
  containsSub_append_left a (containsSub_of_pref (isPrefixOf_self_append pat b))

theorem containsSub_tail (pat a : List Char) :
    containsSub pat (a ++ pat) = true := by
  have := containsSub_sandwich pat a []
  simpa using this

theorem requiresAuth_char1 (url : String) (h : requiresAuth url) :
    url.toList.getD 1 ' ' ≠ '2' ∧ url.toList.getD 1 ' ' ≠ '3' := by
  have h9 : (1 : Nat) < ("/uploads/".toList).length := by decide
  rcases h with h | h | h | h | h | h | h | h
  · subst h; decide
  · subst h; decide
  · subst h; decide
  · subst h; decide
  · have h' : List.isPrefixOf ("/uploads/".toList) url.toList = true := h
    obtain ⟨t, ht⟩ := isPrefixOf_exists h'
    rw [ht, getD_append_left h9]
    decide
  · subst h; decide
  · subst h; decide
  · subst h; decide

theorem dispatch_url_unauth (url : String) (users : List (String × String))
    (st : http_conn) (hauth : requiresAuth url) :
    dispatch_url url false users st =
      (ReqAction.ret HTTP_CODE.DYNAMIC_REQUEST, redirect_login st, users) := by
  rcases hauth with h | h | h | h | h | h | h | h
  · subst h; rfl
  · subst h; rfl
  · subst h; rfl
  · subst h; rfl
  · have h' : List.isPrefixOf ("/uploads/".toList) url.toList = true := h
    obtain ⟨t, ht⟩ := isPrefixOf_exists h'
    have h9l : ("/uploads/".toList).length = 9 := by decide
    have hlen : url.toList.length = 9 + t.length := by
      rw [ht, List.length_append, h9l]
    have hne7 : ∀ v : String, v.toList.length = 7 → url ≠ v := by
      intro v hv he
      rw [he, hv] at hlen
      omega
    have h9 : (1 : Nat) < ("/uploads/".toList).length := by decide
    have hgd : url.toList.getD 1 ' ' = 'u' := by
      rw [ht, getD_append_left h9]
      decide
    have hnesj : url ≠ "/status.json" := by
      intro he
      rw [he] at hgd
      exact absurd hgd (by decide)
    unfold dispatch_url
    rw [if_neg (hne7 "/logout" (by decide))]
    rw [if_neg hnesj]
    rw [if_neg (show ¬ (url = "/upload" ∧ ¬ (false = true)) from
      fun hc => hne7 "/upload" (by decide) hc.1)]
    rw [if_neg (show ¬ (url = "/upload" ∧ st.m_method = METHOD.POST) from
      fun hc => hne7 "/upload" (by decide) hc.1)]
    dsimp only
    rw [if_neg (hne7 "/upload" (by decide))]
    by_cases hd : url = "/uploads/delete"
    · rw [if_pos hd]
      rfl
    · rw [if_neg hd]
      by_cases hl : url = "/uploads/list"
      · rw [if_pos hl]
        rfl
      · rw [if_neg hl]
        rw [if_pos h]
        rfl
  · subst h; rfl
  · subst h; rfl
  · subst h; rfl

theorem process_write_dynamic_302 (st : http_conn)
    (h302 : st.m_response_status = 302) (fs ps : Nat) (w : WriteOut)
    (h : process_write HTTP_CODE.DYNAMIC_REQUEST st fs ps = some w) :
    ∃ t, w.wbuf = "HTTP/1.1 302 Found\r\n" ++ t := by
  unfold process_write at h
  dsimp only at h
  rw [h302] at h
  split at h
  · rw [Option.some.injEq] at h
    subst h
    dsimp only
    refine ext_trans (b := (add_status_line "" 302 (status_title 302)).2) ?_
      (add_headers_ext _ _ _)
    exact ⟨"", by decide⟩
  · rw [Option.some.injEq] at h
    subst h
    dsimp only
    refine ext_trans (b := (add_status_line "" 302 (status_title 302)).2) ?_
      (add_headers_ext _ _ _)
    exact ⟨"", by decide⟩

/-- C6: when the percent-decoded URL passes the validity checks and
routes (after aliasing and the shortcut table) to an authenticated
endpoint, and the `ws_user` cookie is absent or names a user that is not
a key of the in-memory user table, `do_request` returns
`DYNAMIC_REQUEST` with response status 302 and appends
`Location: /pages/log.html` to the extra headers (preceded, when the
cookie named an unknown user, by the clearing
`Set-Cookie: ws_user=; Path=/; Max-Age=0`), and every response
`process_write` assembles from that state starts with the status line
`HTTP/1.1 302 Found`. -/
theorem unauth_request_redirects_to_login (users : List (String × String))
    (sq : Bool) (st0 : http_conn) (D : String)
    (hD : url_decode (if (st0.m_url).getD "/" = "" then "/"
      else (st0.m_url).getD "/") = D)
    (hne : ¬ (D = "" ∨ D.toList.headI ≠ '/'))
    (hdd : containsSub ['.', '.'] D.toList = false)
    (hauth : requiresAuth (shortcut_url (alias_url D)))
    (hmiss : get_cookie_value st0.m_cookie "ws_user" = "" ∨
      lookupUser users (get_cookie_value st0.m_cookie "ws_user") = none) :
    (do_request users sq st0).1 = ReqAction.ret HTTP_CODE.DYNAMIC_REQUEST ∧
    (do_request users sq st0).2.1.m_response_status = 302 ∧
    (get_cookie_value st0.m_cookie "ws_user" = "" →
      (do_request users sq st0).2.1.m_extra_headers =
        st0.m_extra_headers ++ "Location: /pages/log.html\r\n") ∧
    (get_cookie_value st0.m_cookie "ws_user" ≠ "" →
      (do_request users sq st0).2.1.m_extra_headers =
        st0.m_extra_headers ++ "Set-Cookie: ws_user=; Path=/; Max-Age=0\r\n"
          ++ "Location: /pages/log.html\r\n") ∧
    (∀ (fs ps : Nat) (w : WriteOut),
      process_write HTTP_CODE.DYNAMIC_REQUEST (do_request users sq st0).2.1
        fs ps = some w →
      ∃ t, w.wbuf = "HTTP/1.1 302 Found\r\n" ++ t) := by
  have hlog : (!decide (get_cookie_value st0.m_cookie "ws_user" = "") &&
      (lookupUser users (get_cookie_value st0.m_cookie "ws_user")).isSome)
        = false := by
    rcases hmiss with h | h
    · simp [h]
    · simp [h]
  have hc1 := requiresAuth_char1 _ hauth
  have hor : (decide ((shortcut_url (alias_url D)).toList.getD 1 ' ' = '2') ||
      decide ((shortcut_url (alias_url D)).toList.getD 1 ' ' = '3'))
        = false := by
    rw [Bool.or_eq_false_iff]
    exact ⟨decide_eq_false hc1.1, decide_eq_false hc1.2⟩
  have hdo : do_request users sq st0 =
      (ReqAction.ret HTTP_CODE.DYNAMIC_REQUEST,
        redirect_login
          (if get_cookie_value st0.m_cookie "ws_user" = "" then st0
            else { st0 with
              m_extra_headers := st0.m_extra_headers ++
                "Set-Cookie: ws_user=; Path=/; Max-Age=0\r\n" }),
        users) := by
    unfold do_request
    dsimp only
    rw [hD]
    rw [if_neg hne]
    rw [if_neg (show ¬ containsSub ['.', '.'] D.toList = true by
      rw [hdd]
      exact Bool.false_ne_true)]
    rw [hlog]
    rw [if_neg Bool.false_ne_true]
    rw [hor]
    simp only [Bool.and_false]
    rw [if_neg Bool.false_ne_true]
    exact dispatch_url_unauth _ users _ hauth
  refine ⟨?_, ?_, ?_, ?_, ?_⟩
  · rw [hdo]
  · rw [hdo]
    rfl
  · intro h
    rw [hdo, if_pos h]
    rfl
  · intro h
    rw [hdo, if_neg h]
    rfl
  · intro fs ps w h
    rw [hdo] at h
    exact process_write_dynamic_302 _ rfl fs ps w h

/-- Witness for C6: `GET /uploads/list` with `Cookie: ws_user=ghost`
against a user table holding only `alice` yields the 302 login redirect
with the cookie-clearing header. -/
theorem unauth_request_redirects_to_login_witness :
    (do_request [("alice", "secret")] true
      { conn0 with
        m_url := some "/uploads/list",
        m_cookie := "ws_user=ghost" }).1 =
      ReqAction.ret HTTP_CODE.DYNAMIC_REQUEST ∧
    (do_request [("alice", "secret")] true
      { conn0 with
        m_url := some "/uploads/list",
        m_cookie := "ws_user=ghost" }).2.1.m_response_status = 302 ∧
    (get_cookie_value ({ conn0 with
        m_url := some "/uploads/list",
        m_cookie := "ws_user=ghost" } : http_conn).m_cookie "ws_user" = "" →
      (do_request [("alice", "secret")] true
        { conn0 with
          m_url := some "/uploads/list",
          m_cookie := "ws_user=ghost" }).2.1.m_extra_headers =
        ({ conn0 with
          m_url := some "/uploads/list",
          m_cookie := "ws_user=ghost" } : http_conn).m_extra_headers ++
          "Location: /pages/log.html\r\n") ∧
    (get_cookie_value ({ conn0 with
        m_url := some "/uploads/list",
        m_cookie := "ws_user=ghost" } : http_conn).m_cookie "ws_user" ≠ "" →
      (do_request [("alice", "secret")] true
        { conn0 with
          m_url := some "/uploads/list",
          m_cookie := "ws_user=ghost" }).2.1.m_extra_headers =
        ({ conn0 with
          m_url := some "/uploads/list",
          m_cookie := "ws_user=ghost" } : http_conn).m_extra_headers ++
          "Set-Cookie: ws_user=; Path=/; Max-Age=0\r\n"
          ++ "Location: /pages/log.html\r\n") ∧
    (∀ (fs ps : Nat) (w : WriteOut),
      process_write HTTP_CODE.DYNAMIC_REQUEST
        (do_request [("alice", "secret")] true
          { conn0 with
            m_url := some "/uploads/list",
            m_cookie := "ws_user=ghost" }).2.1 fs ps = some w →
      ∃ t, w.wbuf = "HTTP/1.1 302 Found\r\n" ++ t) :=
  unauth_request_redirects_to_login [("alice", "secret")] true
    { conn0 with
      m_url := some "/uploads/list",
      m_cookie := "ws_user=ghost" } "/uploads/list"
    (by decide) (by decide) (by decide)
    (by unfold requiresAuth; decide) (by decide)

/-- C4: contrary to the spec, an `mmap` failure on a stat-ed,
world-readable, non-directory file is not answered with 500: the static
tail of `do_request` never inspects the `open`/`mmap` results
(`mmapOk := false` below), returns `FILE_REQUEST` rather than
`INTERNAL_ERROR`, and `process_write` then assembles a response starting
with `HTTP/1.1 200 OK`. -/
theorem mmap_failure_still_file_request (url : String) (fs : FileStat)
    (nf : Option String) (st : http_conn)
    (hr : fs.readable_oth = true) (hd : fs.is_dir = false) :
    (do_request_static url (some fs) nf false st).1 =
      HTTP_CODE.FILE_REQUEST ∧
    (do_request_static url (some fs) nf false st).1 ≠
      HTTP_CODE.INTERNAL_ERROR ∧
    (∀ (st2 : http_conn) (fsize ps : Nat) (w : WriteOut),
      process_write HTTP_CODE.FILE_REQUEST st2 fsize ps = some w →
      ∃ t, w.wbuf = "HTTP/1.1 200 OK\r\n" ++ t) := by
  have h1 : do_request_static url (some fs) nf false st =
      (HTTP_CODE.FILE_REQUEST,
        { st with m_content_type := mime_of_ext (urlExt url) }) := by
    unfold do_request_static
    dsimp only
    rw [if_neg (show ¬ ¬ fs.readable_oth = true from fun hc => hc hr)]
    rw [if_neg (show ¬ fs.is_dir = true by
      rw [hd]
      exact Bool.false_ne_true)]
  refine ⟨by rw [h1], ?_, ?_⟩
  · rw [h1]
    simp
  intro st2 fsize ps w h
  unfold process_write at h
  dsimp only at h
  split at h
  · rw [Option.some.injEq] at h
    subst h
    dsimp only
    refine ext_trans (b := (add_status_line "" 200 "OK").2) ?_
      (add_headers_ext _ _ _)
    exact ⟨"", by decide⟩
  · split at h
    · rw [Option.some.injEq] at h
      subst h
      dsimp only
      refine ext_trans (b := (add_headers (add_status_line "" 200 "OK").2
        "<html><body></body></html>".length st2).2) ?_
        (add_response_ext _ _)
      refine ext_trans (b := (add_status_line "" 200 "OK").2) ?_
        (add_headers_ext _ _ _)
      exact ⟨"", by decide⟩
    · simp at h

/-- Witness for C4: a 5-byte world-readable regular file whose `mmap`
failed is still served as `FILE_REQUEST`. -/
theorem mmap_failure_still_file_request_witness :
    (do_request_static "/a.html" (some ⟨5, true, false⟩) none false
      conn0).1 = HTTP_CODE.FILE_REQUEST ∧
    (do_request_static "/a.html" (some ⟨5, true, false⟩) none false
      conn0).1 ≠ HTTP_CODE.INTERNAL_ERROR ∧
    (∀ (st2 : http_conn) (fsize ps : Nat) (w : WriteOut),
      process_write HTTP_CODE.FILE_REQUEST st2 fsize ps = some w →
      ∃ t, w.wbuf = "HTTP/1.1 200 OK\r\n" ++ t) :=
  mmap_failure_still_file_request "/a.html" ⟨5, true, false⟩ none conn0
    rfl rfl

end WS
